import Mathlib

/-!
Verification of the QuickRank ensemble-pruning and DART-boosting core.

The development shallowly embeds, over exact rational arithmetic:

* `EnsemblePruning::learn` and its six selection policies
  (`src/pruning/ensemble_pruning.cc`),
* the DART training loop `Dart::learn` with its dropout selection,
  weight normalization and count-based permanent dropping
  (`dart.cc`, concatenated into the same source file),
* the early-stopping loop skeleton of `LambdaMartSelective::learn`
  (`src/learning/forests/lambdamartselective.cc`),
* `Dart::import_model_state` and `Dart::update_modelscores`.

Floating-point arithmetic is modelled by `ℚ`; external collaborators
(ranking metrics, the line-search weight optimizer, the random number
generator, the fitted regression trees) are abstracted as explicit
oracle inputs.  Components of the repository that are not part of the
provided sources (the `Ensemble` container, the line-search output) are
modelled from the specification text and marked as such.
-/

namespace QuickRank

/-- Pruning policies of `EnsemblePruning`, in the order of
`EnsemblePruning::pruningMethodName` (ensemble_pruning.cc line 37). -/
inductive PruningMethod
  | RANDOM
  | LOW_WEIGHTS
  | SKIP
  | LAST
  | QUALITY_LOSS
  | SCORE_LOSS
deriving DecidableEq, Fintype, Repr

/-- Modelled from the spec: the line-search weight optimizer is an external
collaborator; only the weight vectors it learns before and after pruning
enter the model (`lineSearch_->get_weigths()` at the two `learn` calls). -/
structure LineSearchOut where
  preWeights : List ℚ
  postWeights : List ℚ
deriving DecidableEq, Repr

/-- Prune count computed at the start of `EnsemblePruning::learn`
(lines 127-136): a rate below 1 is a fraction of the number of trees
(features), rounded to nearest as by C `round`; a rate of 1 or more is an
absolute count, truncated to an integer. -/
def estimatorsToPrune (rate : ℚ) (numFeatures : ℕ) : ℕ :=
  if rate < 1 then (round (rate * numFeatures)).toNat
  else (Int.floor rate).toNat

/-- Per-instance linear score of `EnsemblePruning::score` (lines 318-330):
each feature column is the output of one tree of the base ensemble,
weighted by the model's weight vector. -/
def epScore (weights : List ℚ) (numFeatures : ℕ) (features : ℕ → ℕ → ℚ)
    (s : ℕ) : ℚ :=
  ∑ f ∈ Finset.range numFeatures, weights.getD f 0 * features s f

/-- Selection loop of `EnsemblePruning::random_pruning` (lines 382-395):
random draws are reduced modulo the number of trees and inserted until the
requested count of distinct indices is reached.  The list argument models
the stream of `rand()` values consumed by the `while` loop. -/
def random_pruning (numFeatures k : ℕ) (draws : List ℕ) : Finset ℕ :=
  draws.foldl
    (fun acc d => if acc.card < k then insert (d % numFeatures) acc else acc) ∅

/-- Selection of `EnsemblePruning::skip_pruning` (lines 397-411): evenly
spaced survivors at step `numFeatures / (numFeatures - k)`; everything not
selected is pruned. -/
def skip_pruning (numFeatures k : ℕ) : Finset ℕ :=
  let toSelect := numFeatures - k
  let step : ℚ := (numFeatures : ℚ) / (toSelect : ℚ)
  let selected := (Finset.range toSelect).image
    (fun i : ℕ => (⌈(i : ℚ) * step⌉).toNat)
  (Finset.range numFeatures).filter (fun f => f ∉ selected)

/-- Selection of `EnsemblePruning::last_pruning` (lines 413-420): the
indices `numFeatures - i` for `i = 1 .. k`, i.e. the most recent trees. -/
def last_pruning (numFeatures k : ℕ) : Finset ℕ :=
  (Finset.Icc 1 k).image (fun i => numFeatures - i)

/-- Index permutation produced by `std::sort` over `iota`-filled indices:
modelled by a stable merge sort under the given boolean order (ties in
`std::sort` are resolved in unspecified order; the stable order is one
admissible outcome). -/
def sortIdxBy (n : ℕ) (le : ℕ → ℕ → Bool) : List ℕ :=
  (List.range n).mergeSort le

/-- Selection of `EnsemblePruning::low_weights_pruning` (lines 422-435):
the k indices of smallest weight. -/
def low_weights_pruning (weights : List ℚ) (k : ℕ) : Finset ℕ :=
  ((sortIdxBy weights.length
      (fun a b => weights.getD a 0 ≤ weights.getD b 0)).take k).toFinset

/-- Selection of `EnsemblePruning::quality_loss_pruning` (lines 437-470):
each feature's weight is zeroed in turn, the dataset is rescored and the
metric evaluated; the k features whose removal leaves the highest metric
are pruned (sort is descending by metric). -/
def quality_loss_pruning (weights : List ℚ) (numFeatures : ℕ)
    (features : ℕ → ℕ → ℚ) (scorer : (ℕ → ℚ) → ℚ) (k : ℕ) : Finset ℕ :=
  let metricScores : ℕ → ℚ := fun f =>
    scorer (epScore (weights.set f 0) numFeatures features)
  ((sortIdxBy numFeatures
      (fun a b => metricScores b ≤ metricScores a)).take k).toFinset

/-- Selection of `EnsemblePruning::score_loss_pruning` (lines 472-500): the
k features with the smallest aggregate weighted contribution over the
dataset. -/
def score_loss_pruning (weights : List ℚ) (numFeatures numInstances : ℕ)
    (features : ℕ → ℕ → ℚ) (k : ℕ) : Finset ℕ :=
  let featureScores : ℕ → ℚ := fun f =>
    ∑ s ∈ Finset.range numInstances, weights.getD f 0 * features s f
  ((sortIdxBy numFeatures
      (fun a b => featureScores a ≤ featureScores b)).take k).toFinset

/-- Recursion of `EnsemblePruning::import_weights_from_line_search`
(lines 332-344): walk the weight vector from index `f`, keeping entries
at pruned positions and consuming one line-search weight per non-pruned
position.  The source asserts the line-search vector is consumed exactly;
a too-short vector falls back to 0 here (unreachable under that
assertion). -/
def importWeightsGo (pruned : Finset ℕ) : ℕ → List ℚ → List ℚ → List ℚ
  | _, _, [] => []
  | f, ls, w :: rest =>
    if f ∈ pruned then w :: importWeightsGo pruned (f + 1) ls rest
    else ls.headD 0 :: importWeightsGo pruned (f + 1) ls.tail rest

/-- Entry point matching `import_weights_from_line_search(pruned)`. -/
def import_weights_from_line_search (pruned : Finset ℕ) (lsWeights weights : List ℚ) :
    List ℚ :=
  importWeightsGo pruned 0 lsWeights weights

/-- Weight zeroing after selection (`EnsemblePruning::learn` lines 226-229):
every selected index gets weight 0. -/
def zeroPruned (weights : List ℚ) (pruned : Finset ℕ) : List ℚ :=
  weights.mapIdx (fun i w => if i ∈ pruned then 0 else w)

/-- Policies that demand the line-search collaborator
(`EnsemblePruning::learn` lines 169-176). -/
def methodNeedsLineSearch : PruningMethod → Bool
  | .LOW_WEIGHTS => true
  | .QUALITY_LOSS => true
  | .SCORE_LOSS => true
  | _ => false

/-- Ways `EnsemblePruning::learn` can end: normally, by the early
`return` after "Impossible to prune everything. Quit!", or by the
`std::invalid_argument` throw when line search is missing. -/
inductive EPOutcome
  | ok
  | aborted
  | threwNoLS
deriving DecidableEq, Repr

/-- Observable result of one `EnsemblePruning::learn` call: the final
weight vector `weights_`, the selected prune set, how the call ended, and
the computed prune count. -/
structure EPResult where
  weights : List ℚ
  pruned : Finset ℕ
  outcome : EPOutcome
  pruneCount : ℕ
deriving DecidableEq

/-- Policy dispatch of the `switch` in `EnsemblePruning::learn`
(lines 197-224). -/
def dispatchPruning (method : PruningMethod) (weights : List ℚ)
    (numFeatures numInstances : ℕ) (features : ℕ → ℕ → ℚ)
    (scorer : (ℕ → ℚ) → ℚ) (draws : List ℕ) (k : ℕ) : Finset ℕ :=
  match method with
  | .RANDOM => random_pruning numFeatures k draws
  | .LOW_WEIGHTS => low_weights_pruning weights k
  | .SKIP => skip_pruning numFeatures k
  | .LAST => last_pruning numFeatures k
  | .QUALITY_LOSS => quality_loss_pruning weights numFeatures features scorer k
  | .SCORE_LOSS => score_loss_pruning weights numFeatures numInstances features k

/-- Sequential model of `EnsemblePruning::learn` (lines 114-280), tracking
the mutations of `weights_` up to the point where the call ends: prune
count and abort check; reset of all weights to 1; line-search requirement
check (throw); pre-pruning import of line-search weights for the three
policies that need them; policy dispatch; zeroing of the selected
weights; optional post-pruning line-search re-fit and import.  `w0` is the
value of `weights_` before the call; metric printing and dataset
filtering have no effect on this state and are omitted. -/
def epLearn (rate : ℚ) (method : PruningMethod)
    (lineSearch : Option LineSearchOut) (numFeatures numInstances : ℕ)
    (features : ℕ → ℕ → ℚ) (scorer : (ℕ → ℚ) → ℚ) (draws : List ℕ)
    (w0 : List ℚ) : EPResult :=
  let k := estimatorsToPrune rate numFeatures
  if ¬ rate < 1 ∧ numFeatures ≤ k then ⟨w0, ∅, .aborted, k⟩
  else
    let w1 : List ℚ := List.replicate numFeatures 1
    match lineSearch, methodNeedsLineSearch method with
    | none, true => ⟨w1, ∅, .threwNoLS, k⟩
    | none, false =>
      let pruned := dispatchPruning method w1 numFeatures numInstances
        features scorer draws k
      ⟨zeroPruned w1 pruned, pruned, .ok, k⟩
    | some ls, needs =>
      let w2 := if needs
        then import_weights_from_line_search ∅ ls.preWeights w1
        else w1
      let pruned := dispatchPruning method w2 numFeatures numInstances
        features scorer draws k
      let w3 := zeroPruned w2 pruned
      ⟨import_weights_from_line_search pruned ls.postWeights w3, pruned, .ok, k⟩

/-- Dropout-selection types of DART, in the order of
`Dart::samplingTypesNames` (dart.cc line 543). -/
inductive SamplingType
  | UNIFORM
  | WEIGHTED
  | WEIGHTED_INV
  | COUNT2
  | COUNT3
  | COUNT2N
  | COUNT3N
  | TOP_FIFTY
deriving DecidableEq, Repr

/-- Weight-normalization types of DART, in the order of
`Dart::normalizationTypesNames` (dart.cc line 548). -/
inductive NormalizationType
  | TREE
  | NONE
  | WEIGHTED
  | FOREST
  | TREE_ADAPTIVE
  | LINESEARCH
  | TREE_BOOST3
deriving DecidableEq, Repr

/-- Modelled from the spec: a fitted regression tree (external
`RegressionTree`/`RTNode::score_instance`) is abstracted by the scores it
assigns to the training instances and to the validation instances. -/
structure DTree where
  onTrain : ℕ → ℚ
  onVal : ℕ → ℚ

/-- Modelled from the spec: the `Ensemble` container (spec section 4.3; its
source is not among the provided files) is an ordered sequence of
(tree, weight) pairs in insertion order. -/
abbrev Ensemble := List (DTree × ℚ)

/-- Default tree used out of range (never reached on in-range indices). -/
def defaultTreePair : DTree × ℚ := (⟨fun _ => 0, fun _ => 0⟩, 0)

/-- Modelled from the spec: `Ensemble::getWeight(t)`. -/
def getWeight (ens : Ensemble) (t : ℕ) : ℚ := (ens.getD t defaultTreePair).2

/-- Modelled from the spec: `Ensemble::getTree(t)`. -/
def getTree (ens : Ensemble) (t : ℕ) : DTree := (ens.getD t defaultTreePair).1

/-- Modelled from the spec: `Ensemble::get_weights()`. -/
def get_weights (ens : Ensemble) : List ℚ := ens.map Prod.snd

/-- Modelled from the spec: `Ensemble::update_ensemble_weights` replaces
all tree weights at once, keeping the trees. -/
def update_ensemble_weights (ens : Ensemble) (w : List ℚ) : Ensemble :=
  ens.zipWith (fun p x => (p.1, x)) w

/-- Modelled from the spec: `Ensemble::filter_out_zero_weighted_trees`
compacts the sequence by physically removing zero-weight trees
(spec sections 4.3 and 8). -/
def filter_out_zero_weighted_trees (ens : Ensemble) : Ensemble :=
  ens.filter (fun p => p.2 ≠ 0)

/-- Full (non-incremental) training-set score of the ensemble, as
`score_dataset` recomputes it: the weighted sum of every tree's output. -/
def ensembleScoreTrain (ens : Ensemble) : ℕ → ℚ :=
  fun i => (ens.map (fun p => p.2 * p.1.onTrain i)).sum

/-- Full validation-set score of the ensemble. -/
def ensembleScoreVal (ens : Ensemble) : ℕ → ℚ :=
  fun i => (ens.map (fun p => p.2 * p.1.onVal i)).sum

/-- Incremental score update `Dart::update_modelscores` (dart.cc lines
1119-1135 and 1158-1172; the horizontal and vertical overloads share the
same arithmetic): for each listed tree index, add (`add = true`) or
subtract that tree's weighted per-instance score from the cached array.
`view` selects which dataset the scores and trees refer to. -/
def update_modelscores (ens : Ensemble) (view : DTree → ℕ → ℚ) (add : Bool)
    (scores : ℕ → ℚ) (trees_to_update : List ℕ) : ℕ → ℚ :=
  trees_to_update.foldl
    (fun sc t => fun i =>
      sc i + (if add then 1 else -1) * getWeight ens t * view (getTree ens t) i)
    scores

/-- Uniform-family selection loop of `Dart::select_trees_to_dropout`
(lines 1189-1206): scan the shuffled index list, keeping indices of
positive-weight trees until the requested count is reached.  `idx` models
the permutation produced by `std::random_shuffle` over `0 .. size-1`
(with `size` halved for `TOP_FIFTY`). -/
def select_trees_uniform (weights : List ℚ) (k : ℕ) (idx : List ℕ) : List ℕ :=
  idx.foldl
    (fun dropped j =>
      if dropped.length < k then
        if 0 < weights.getD j 0 then dropped ++ [j] else dropped
      else dropped)
    []

/-- Literal embedding of `Dart::binary_search` (lines 1408-1424); the fuel
exceeds the initial interval length, which shrinks at every recursion, so
the fuel case is never reached on the original call. -/
def binary_search_go (arr : List ℚ) (key : ℚ) : ℕ → ℤ → ℤ → ℤ
  | 0, _, _ => -1
  | fuel + 1, low, high =>
    if low ≤ high then
      let midpoint := low + (high - low) / 2
      if key < arr.getD midpoint.toNat 0 ∧
          (midpoint = 0 ∨ arr.getD (midpoint - 1).toNat 0 ≤ key) then midpoint
      else if key < arr.getD midpoint.toNat 0 then
        binary_search_go arr key fuel low (midpoint - 1)
      else binary_search_go arr key fuel (midpoint + 1) high
    else -1

/-- Entry point matching `Dart::binary_search(array, key)`. -/
def binary_search (arr : List ℚ) (key : ℚ) : ℤ :=
  binary_search_go arr key (arr.length + 2) 0 ((arr.length : ℤ) - 1)

/-- Probability rebuild inside the weighted selection branch of
`select_trees_to_dropout` (lines 1222-1230): live entries are set to
`weight / sumWeights`, already-picked entries stay 0, and under inverse
weighting every entry becomes its complement. -/
def rebuildProb (weights : List ℚ) (inv : Bool) (sumWeights : ℚ)
    (prob : List ℚ) : List ℚ :=
  (List.range weights.length).map (fun i =>
    let p := if prob.getD i 0 ≠ 0 then weights.getD i 0 / sumWeights
      else prob.getD i 0
    if inv then 1 - p else p)

/-- Cumulative sums `cumProb` of the rebuilt probabilities
(lines 1227-1229). -/
def prefixSums (l : List ℚ) : List ℚ :=
  (List.range l.length).map (fun i => (l.take (i + 1)).sum)

/-- Weighted selection loop of `select_trees_to_dropout` (lines
1218-1242); the draw list models the stream of `rand()/RAND_MAX` values,
one consumed per loop pass. -/
def select_trees_weighted_go (weights : List ℚ) (inv : Bool) (k : ℕ) :
    List ℚ → List ℚ → ℚ → List ℕ → List ℕ
  | [], _, _, dropped => dropped
  | draw :: rest, prob, sumWeights, dropped =>
    if dropped.length < k then
      let prob1 := rebuildProb weights inv sumWeights prob
      let cumProb := prefixSums prob1
      let index := binary_search cumProb draw
      if index = -1 then dropped
      else
        select_trees_weighted_go weights inv k rest
          (prob1.set index.toNat 0)
          (sumWeights - weights.getD index.toNat 0)
          (dropped ++ [index.toNat])
    else dropped

/-- Entry point for the weighted selection branch (`prob` starts as a
copy of the weights, `sumWeights` as their sum, lines 1211-1216). -/
def select_trees_weighted (weights : List ℚ) (inv : Bool) (k : ℕ)
    (draws : List ℚ) : List ℕ :=
  select_trees_weighted_go weights inv k draws weights weights.sum []

/-- Dispatch of `Dart::select_trees_to_dropout` (lines 1174-1246). -/
def select_trees_to_dropout (sampleType : SamplingType) (weights : List ℚ)
    (trees_to_dropout : ℕ) (shuffledIdx : List ℕ) (draws : List ℚ) : List ℕ :=
  if trees_to_dropout = 0 then []
  else match sampleType with
    | .WEIGHTED => select_trees_weighted weights false trees_to_dropout draws
    | .WEIGHTED_INV => select_trees_weighted weights true trees_to_dropout draws
    | _ => select_trees_uniform weights trees_to_dropout shuffledIdx

/-- Multiply the entry at index `i` by `c` (the in-place `*=` on a weight
vector). -/
def scaleAt (w : List ℚ) (i : ℕ) (c : ℚ) : List ℚ :=
  w.set i (w.getD i 0 * c)

/-- Embedding of `Dart::normalize_trees_restore_drop` (lines 1248-1310):
append the weight of the last trained tree and rescale the dropped
trees, according to the normalization type. -/
def normalize_trees_restore_drop (normalizeType : NormalizationType)
    (shrinkage : ℚ) (weights : List ℚ) (dropped_trees : List ℕ)
    (last_tree_weight : ℚ) : List ℚ :=
  let k : ℚ := dropped_trees.length
  match normalizeType with
  | .TREE | .TREE_ADAPTIVE | .TREE_BOOST3 =>
    let alpha : ℚ := if normalizeType = .TREE_BOOST3 then 3 else 1
    let w1 := weights ++ [(shrinkage * alpha) / (shrinkage * alpha + k)]
    let norm := k / (k + shrinkage * alpha)
    dropped_trees.foldl (fun w idx => scaleAt w idx norm) w1
  | .NONE => weights ++ [shrinkage]
  | .WEIGHTED =>
    let s := (dropped_trees.map (fun t => weights.getD t 0)).sum
    let sumWithLast := s + shrinkage
    let norm := s / sumWithLast
    let w1 := weights ++ [shrinkage / sumWithLast]
    dropped_trees.foldl (fun w idx => scaleAt w idx norm) w1
  | .FOREST =>
    let w1 := weights ++ [shrinkage / (1 + shrinkage)]
    let norm := 1 / (1 + shrinkage)
    dropped_trees.foldl (fun w idx => scaleAt w idx norm) w1
  | .LINESEARCH =>
    let w1 := weights ++ [last_tree_weight / (last_tree_weight + k)]
    let norm := k / (k + last_tree_weight)
    dropped_trees.foldl (fun w idx => scaleAt w idx norm) w1

/-- First index of the maximum of a list, as `std::max_element` computes
it (a later element replaces the current maximum only when strictly
greater, so the first maximum wins). -/
def idxOfMax (l : List ℚ) : ℕ :=
  (l.foldl
    (fun st v =>
      if st.2.1 < v then (st.2.2, v, st.2.2 + 1)
      else (st.1, st.2.1, st.2.2 + 1))
    ((0 : ℕ), l.headD 0, (0 : ℕ))).1

/-- Candidate weights of the LINESEARCH normalization window (lines
1355-1366): starting weight 1, window 1, 16 points, i.e. from 0 in steps
of 1/8 up to 2, keeping only the positive values. -/
def linesearchCandidates : List ℚ :=
  ((List.range 17).map (fun j : ℕ => (j : ℚ) * (1 / 8))).filter
    (fun w => 0 < w)

/-- Embedding of `Dart::get_weight_last_tree` (lines 1312-1406): the
weight assigned to the freshly fitted tree; `k` is the number of dropped
trees and `scoresTrain` the cached training scores (which at the call
site already exclude the dropped trees). -/
def get_weight_last_tree (normalizeType : NormalizationType)
    (shrinkage : ℚ) (k : ℕ) (scorerTrain : (ℕ → ℚ) → ℚ)
    (scoresTrain : ℕ → ℚ) (tree : DTree) : ℚ :=
  match normalizeType with
  | .TREE => shrinkage
  | .NONE => shrinkage
  | .WEIGHTED => shrinkage
  | .FOREST => shrinkage
  | .TREE_ADAPTIVE => shrinkage / (shrinkage + (k : ℚ))
  | .TREE_BOOST3 => (shrinkage * 3) / (shrinkage * 3 + (k : ℚ))
  | .LINESEARCH =>
    let cands := linesearchCandidates
    let metricScores := cands.map (fun w =>
      scorerTrain (fun i => scoresTrain i + w * tree.onTrain i))
    cands.getD (idxOfMax metricScores) 0

/-- Exact value of `std::numeric_limits<double>::lowest()`, used as the
sentinel for yet-unset metric values. -/
def lowestScore : ℚ := -((2 ^ 53 - 1) * 2 ^ 971)

/-- Counting sampling types, treated specially by `Dart::learn`
(lines 629-632 and 846-849). -/
def isCountType : SamplingType → Bool
  | .COUNT2 | .COUNT3 | .COUNT2N | .COUNT3N => true
  | _ => false

/-- Count-increment loop of `Dart::learn` (lines 860-865): each listed
tree's count is incremented, and trees whose new count reaches the
threshold while their (restored) weight is positive are collected for
permanent dropping. -/
def countLoop (threshold : ℤ) (orig_weights : List ℚ) :
    List ℕ → List ℤ → List ℕ → List ℤ × List ℕ
  | [], counts, acc => (counts, acc)
  | t :: rest, counts, acc =>
    let counts1 := counts.set t (counts.getD t 0 + 1)
    let acc1 :=
      if threshold ≤ counts1.getD t 0 ∧ 0 < orig_weights.getD t 0 then
        acc ++ [t]
      else acc
    countLoop threshold orig_weights rest counts1 acc1

/-- Count-vector compaction on cleanup (lines 962-971): keep the counts
of the trees that retain a positive weight. -/
def filtCounts (weights : List ℚ) (counts : List ℤ) : List ℤ :=
  ((List.range weights.length).filter
    (fun i => decide (0 < weights.getD i 0))).map (fun i => counts.getD i 0)

/-- Static configuration of one `Dart::learn` call: hyperparameters plus
the two dataset metrics, abstracted as functions from a score array to a
metric value (`Metric::evaluate_dataset`). -/
structure DartCfg where
  ntrees : ℕ
  shrinkage : ℚ
  valid_iterations : ℕ
  sample_type : SamplingType
  normalize_type : NormalizationType
  rate_drop : ℚ
  skip_drop : ℚ
  keep_drop_cfg : Bool
  hasValidation : Bool
  scorerTrain : (ℕ → ℚ) → ℚ
  scorerVal : (ℕ → ℚ) → ℚ

/-- Mutable state of the `Dart::learn` training loop: the ensemble, the
cached score arrays, the per-tree drop counts, the loop-carried metric
values, the best-so-far bookkeeping, the iteration counter `m`, and the
`keep_drop` flag as adjusted during initialization. -/
structure DartState where
  ensemble : Ensemble
  scoresTrain : ℕ → ℚ
  scoresVal : ℕ → ℚ
  counts : List ℤ
  metricTrain : ℚ
  metricVal : ℚ
  bestMetricTrain : ℚ
  bestMetricVal : ℚ
  bestIter : ℕ
  bestModel : ℕ
  bestWeights : List ℚ
  m : ℕ
  droppedBeforeCleaning : ℕ
  keep_drop : Bool
  lastIterationGlobalScoring : ℕ

/-- Per-iteration oracle inputs: the `rand()/RAND_MAX` draw deciding
dropout skip, the shuffled index permutation and weighted-draw stream
used by dropout selection, and the regression tree fitted on the
pseudo-responses of this iteration (external fitting code). -/
structure DartOracle where
  probSkipDropout : ℚ
  shuffledIdx : List ℕ
  weightedDraws : List ℚ
  newTree : DTree

/-- Dropout-count computation at the top of the loop body (lines
702-713): no dropout when the draw does not exceed `skip_drop`; an
absolute `rate_drop` is used only when the ensemble is at least twice
that size; a fractional one is rounded against the weight count. -/
def dartTreesToDropout (cfg : DartCfg) (ensLen owLen : ℕ) (prob : ℚ) : ℕ :=
  if cfg.skip_drop < prob then
    if 1 ≤ cfg.rate_drop then
      if cfg.rate_drop * 2 ≤ (ensLen : ℚ) then (Int.floor cfg.rate_drop).toNat
      else 0
    else (round (cfg.rate_drop * (owLen : ℚ))).toNat
  else 0

/-- Observable facts about one executed iteration of `Dart::learn`,
recorded for the statements below: they are the values of the
corresponding local variables of the loop body (`owRestored` is the
`orig_weights` vector as it stands after the keep/restore branch, i.e.
after the in-place mutation by `normalize_trees_restore_drop`). -/
structure IterReport where
  trees_to_dropout : ℕ
  dropped_trees : List ℕ
  appendedWeight : ℚ
  dropoutBetter : Bool
  fitBetter : Bool
  keptDrop : Bool
  bestImproved : Bool
  trees_to_drop_by_count : List ℕ
  countsBeforeFilter : List ℤ
  weightsBeforeFilter : List ℚ
  owRestored : List ℚ

/-- Intermediate values shared by the keep/restore branch and the
count-based dropping block of the loop body. -/
structure BranchOut where
  scoresTrain : ℕ → ℚ
  scoresVal : ℕ → ℚ
  ow : List ℚ
  ensemble : Ensemble
  dropped_trees : List ℕ
  metricTrain : ℚ
  metricVal : ℚ
  droppedBeforeCleaning : ℕ

/-- Keep-the-drop branch of `Dart::learn` (lines 803-809): the dropped
trees stay at weight 0, the new scores and fit metrics are adopted. -/
def dartKeepBranch (trees_to_dropout dbc : ℕ) (scoresTrain2 scoresVal2 : ℕ → ℚ)
    (orig_weights : List ℚ) (ens2 : Ensemble) (dropped_trees : List ℕ)
    (mtFit mvFit : ℚ) : BranchOut :=
  ⟨scoresTrain2, scoresVal2, orig_weights, ens2, dropped_trees, mtFit, mvFit,
    dbc + trees_to_dropout⟩

/-- Restore branch of `Dart::learn` (lines 810-841): remove the new
tree's contribution from the scores, renormalize and restore the dropped
trees' weights, then add back the dropped trees together with the new
tree and re-evaluate the metrics.  `mvPrev` is the loop-carried
`metric_on_validation`, kept when there is no validation set. -/
def dartRestoreBranch (cfg : DartCfg) (trees_to_dropout dbc : ℕ)
    (scoresTrain2 scoresVal2 : ℕ → ℚ) (orig_weights : List ℚ)
    (ens2 : Ensemble) (dropped_trees : List ℕ) (tree_weight : ℚ)
    (lastTreeIndex : ℕ) (mvPrev : ℚ) : BranchOut :=
  let scoresTrain3 :=
    update_modelscores ens2 DTree.onTrain false scoresTrain2 [lastTreeIndex]
  let scoresVal3 :=
    if cfg.hasValidation then
      update_modelscores ens2 DTree.onVal false scoresVal2 [lastTreeIndex]
    else scoresVal2
  let ow1 :=
    if 0 < trees_to_dropout then
      normalize_trees_restore_drop cfg.normalize_type cfg.shrinkage
        orig_weights dropped_trees tree_weight
    else orig_weights
  let ens3 :=
    if 0 < trees_to_dropout then update_ensemble_weights ens2 ow1 else ens2
  let dropped1 := dropped_trees ++ [lastTreeIndex]
  let scoresTrain4 :=
    update_modelscores ens3 DTree.onTrain true scoresTrain3 dropped1
  let scoresVal4 :=
    if cfg.hasValidation then
      update_modelscores ens3 DTree.onVal true scoresVal3 dropped1
    else scoresVal3
  ⟨scoresTrain4, scoresVal4, ow1, ens3, dropped1, cfg.scorerTrain scoresTrain4,
    (if cfg.hasValidation then cfg.scorerVal scoresVal4 else mvPrev), dbc⟩

/-- Count-based permanent-dropping block of `Dart::learn` (lines
843-930), entered only for counting sampling types on iterations where
the fit after dropout beat the previous full-model metric: counts of the
dropped trees (excluding the last list entry) are incremented, and trees
at or above the threshold with positive weight are permanently zeroed,
with score and weight renormalization for the N-variants.  Returns the
updated branch data, the updated counts and `trees_to_drop_by_count`. -/
def dartCountBlock (cfg : DartCfg) (trees_to_dropout : ℕ) (fitBetter : Bool)
    (b : BranchOut) (counts2 : List ℤ) : BranchOut × List ℤ × List ℕ :=
  if isCountType cfg.sample_type && fitBetter then
    let threshold : ℤ :=
      if cfg.sample_type = .COUNT3 ∨ cfg.sample_type = .COUNT3N then 3 else 2
    let cl := countLoop threshold b.ow b.dropped_trees.dropLast counts2 []
    let counts3 := cl.1
    let ttdbc := cl.2
    if ttdbc ≠ [] then
      let dbc1 := b.droppedBeforeCleaning + ttdbc.length
      if cfg.sample_type = .COUNT2N ∨ cfg.sample_type = .COUNT3N then
        let st1 := update_modelscores b.ensemble DTree.onTrain false
          b.scoresTrain b.dropped_trees
        let sv1 :=
          if cfg.hasValidation then
            update_modelscores b.ensemble DTree.onVal false b.scoresVal
              b.dropped_trees
          else b.scoresVal
        let denom : ℕ := trees_to_dropout - ttdbc.length + 1
        let lastTreeIndex := b.ensemble.length - 1
        let ow1 := scaleAt b.ow lastTreeIndex (1 / (denom : ℚ))
        let ow2 := b.dropped_trees.dropLast.foldl
          (fun w t => scaleAt w t ((trees_to_dropout : ℚ) / (denom : ℚ))) ow1
        let ow3 := ttdbc.foldl (fun w t => w.set t 0) ow2
        let ens1 := update_ensemble_weights b.ensemble ow3
        let st2 := update_modelscores ens1 DTree.onTrain true st1 b.dropped_trees
        let sv2 :=
          if cfg.hasValidation then
            update_modelscores ens1 DTree.onVal true sv1 b.dropped_trees
          else sv1
        (⟨st2, sv2, ow3, ens1, b.dropped_trees, cfg.scorerTrain st2,
          (if cfg.hasValidation then cfg.scorerVal sv2 else b.metricVal), dbc1⟩,
         counts3, ttdbc)
      else
        let st1 := update_modelscores b.ensemble DTree.onTrain false
          b.scoresTrain ttdbc
        let sv1 :=
          if cfg.hasValidation then
            update_modelscores b.ensemble DTree.onVal false b.scoresVal ttdbc
          else b.scoresVal
        let ow1 := ttdbc.foldl (fun w t => w.set t 0) b.ow
        let ens1 := update_ensemble_weights b.ensemble ow1
        (⟨st1, sv1, ow1, ens1, b.dropped_trees, cfg.scorerTrain st1,
          (if cfg.hasValidation then cfg.scorerVal sv1 else b.metricVal), dbc1⟩,
         counts3, ttdbc)
    else (b, counts3, ttdbc)
  else (b, counts2, [])

/-- Best-improvement test of the loop body (lines 935-948): on validation
data when present, otherwise on training data. -/
def dartBestImproved (cfg : DartCfg) (s : DartState) (b2 : BranchOut) : Bool :=
  if cfg.hasValidation then decide (s.bestMetricVal < b2.metricVal)
  else decide (s.bestMetricTrain < b2.metricTrain)

/-- Best-model bookkeeping block of the loop body (lines 950-981 and
1014-1023): on improvement, record the metrics and iteration, compact the
count vector (counting types) and the ensemble (dropping zero-weight
trees), snapshot the weights, and - when more than 10 iterations passed
since the last full rescoring - recompute both score caches from the
ensemble. -/
def dartBestBlock (cfg : DartCfg) (s : DartState) (b2 : BranchOut)
    (counts3 : List ℤ) : DartState :=
  let best_improved := dartBestImproved cfg s b2
  let weightsCur := get_weights b2.ensemble
  let counts4 :=
    if best_improved && isCountType cfg.sample_type then
      filtCounts weightsCur counts3
    else counts3
  let ensembleF :=
    if best_improved then filter_out_zero_weighted_trees b2.ensemble
    else b2.ensemble
  let doGlobal := best_improved &&
    decide (10 < s.m - s.lastIterationGlobalScoring)
  let scoresTrainF :=
    if doGlobal then ensembleScoreTrain ensembleF else b2.scoresTrain
  let scoresValF :=
    if doGlobal && cfg.hasValidation then ensembleScoreVal ensembleF
    else b2.scoresVal
  { ensemble := ensembleF
    scoresTrain := scoresTrainF
    scoresVal := scoresValF
    counts := counts4
    metricTrain := b2.metricTrain
    metricVal := b2.metricVal
    bestMetricTrain := if best_improved then b2.metricTrain else s.bestMetricTrain
    bestMetricVal := if best_improved then b2.metricVal else s.bestMetricVal
    bestIter := if best_improved then s.m else s.bestIter
    bestModel := if best_improved then ensembleF.length else s.bestModel
    bestWeights := if best_improved then get_weights ensembleF else s.bestWeights
    m := s.m + 1
    droppedBeforeCleaning :=
      if best_improved then 0 else b2.droppedBeforeCleaning
    keep_drop := s.keep_drop
    lastIterationGlobalScoring :=
      if doGlobal then s.m else s.lastIterationGlobalScoring }

/-- One full iteration of the `Dart::learn` training loop (body of the
`while` at lines 693-1031, minus the printing and partial-save side
effects): dropout decision and selection, score subtraction, tree fit
(oracle), tree-weight computation, push, keep/restore decision,
count-based permanent dropping, best-model bookkeeping with zero-weight
compaction, and the periodic full rescoring.  `s.m` is the value of the
iteration counter `m` for this pass. -/
def dartIteration (cfg : DartCfg) (s : DartState) (o : DartOracle) :
    DartState × IterReport :=
  let orig_weights := get_weights s.ensemble
  let trees_to_dropout : ℕ := dartTreesToDropout cfg s.ensemble.length
    orig_weights.length o.probSkipDropout
  let dropped_trees :=
    if 0 < trees_to_dropout then
      select_trees_to_dropout cfg.sample_type orig_weights trees_to_dropout
        o.shuffledIdx o.weightedDraws
    else []
  let scoresTrain1 :=
    if 0 < trees_to_dropout then
      update_modelscores s.ensemble DTree.onTrain false s.scoresTrain
        dropped_trees
    else s.scoresTrain
  let metric_on_training_dropout : ℚ :=
    if 0 < trees_to_dropout then cfg.scorerTrain scoresTrain1 else 0
  let scoresVal1 :=
    if 0 < trees_to_dropout ∧ cfg.hasValidation then
      update_modelscores s.ensemble DTree.onVal false s.scoresVal dropped_trees
    else s.scoresVal
  let metric_on_validation_dropout : ℚ :=
    if 0 < trees_to_dropout ∧ cfg.hasValidation then cfg.scorerVal scoresVal1
    else 0
  let dropout_better_than_full : Bool :=
    if 0 < trees_to_dropout then
      if cfg.hasValidation then
        decide (s.metricVal < metric_on_validation_dropout)
      else decide (s.metricTrain < metric_on_training_dropout)
    else false
  let dropped_weights :=
    if 0 < trees_to_dropout then
      dropped_trees.foldl (fun w idx => w.set idx 0) orig_weights
    else orig_weights
  let ensemble1 :=
    if 0 < trees_to_dropout then update_ensemble_weights s.ensemble dropped_weights
    else s.ensemble
  let tree := o.newTree
  let tree_weight := get_weight_last_tree cfg.normalize_type cfg.shrinkage
    dropped_trees.length cfg.scorerTrain scoresTrain1 tree
  let ensemble2 := ensemble1 ++ [(tree, tree_weight)]
  let counts2 := s.counts ++ [(0 : ℤ)]
  let lastTreeIndex := ensemble2.length - 1
  let scoresTrain2 :=
    update_modelscores ensemble2 DTree.onTrain true scoresTrain1 [lastTreeIndex]
  let metric_on_training_fit := cfg.scorerTrain scoresTrain2
  let scoresVal2 :=
    if cfg.hasValidation then
      update_modelscores ensemble2 DTree.onVal true scoresVal1 [lastTreeIndex]
    else scoresVal1
  let metric_on_validation_fit : ℚ :=
    if cfg.hasValidation then cfg.scorerVal scoresVal2 else lowestScore
  let fit_after_dropout_better_than_full : Bool :=
    if 0 < trees_to_dropout then
      if cfg.hasValidation then
        decide (s.metricVal < metric_on_validation_fit)
      else decide (s.metricTrain < metric_on_training_fit)
    else false
  let keptDrop := s.keep_drop && fit_after_dropout_better_than_full
  let b :=
    if keptDrop then
      dartKeepBranch trees_to_dropout s.droppedBeforeCleaning scoresTrain2
        scoresVal2 orig_weights ensemble2 dropped_trees
        metric_on_training_fit metric_on_validation_fit
    else
      dartRestoreBranch cfg trees_to_dropout s.droppedBeforeCleaning
        scoresTrain2 scoresVal2 orig_weights ensemble2 dropped_trees
        tree_weight lastTreeIndex s.metricVal
  let cb := dartCountBlock cfg trees_to_dropout
    fit_after_dropout_better_than_full b counts2
  let b2 := cb.1
  let counts3 := cb.2.1
  let trees_to_drop_by_count := cb.2.2
  (dartBestBlock cfg s b2 counts3,
   { trees_to_dropout := trees_to_dropout
     dropped_trees := dropped_trees
     appendedWeight := tree_weight
     dropoutBetter := dropout_better_than_full
     fitBetter := fit_after_dropout_better_than_full
     keptDrop := keptDrop
     bestImproved := dartBestImproved cfg s b2
     trees_to_drop_by_count := trees_to_drop_by_count
     countsBeforeFilter := counts3
     weightsBeforeFilter := get_weights b2.ensemble
     owRestored := b.ow })

/-- Stage of the loop body, named after its local variable:
`trees_to_dropout` (lines 702-713). -/
def itTD (cfg : DartCfg) (s : DartState) (o : DartOracle) : ℕ :=
  dartTreesToDropout cfg s.ensemble.length (get_weights s.ensemble).length
    o.probSkipDropout

/-- Stage of the loop body: `dropped_trees` as returned by
`select_trees_to_dropout` (lines 715-718). -/
def itDropped (cfg : DartCfg) (s : DartState) (o : DartOracle) : List ℕ :=
  if 0 < itTD cfg s o then
    select_trees_to_dropout cfg.sample_type (get_weights s.ensemble)
      (itTD cfg s o) o.shuffledIdx o.weightedDraws
  else []

/-- Stage of the loop body: `scores_on_training_` after removing the
dropped trees' contribution (lines 720-726). -/
def itScoresTrain1 (cfg : DartCfg) (s : DartState) (o : DartOracle) :
    ℕ → ℚ :=
  if 0 < itTD cfg s o then
    update_modelscores s.ensemble DTree.onTrain false s.scoresTrain
      (itDropped cfg s o)
  else s.scoresTrain

/-- Stage of the loop body: `scores_on_validation_` after removing the
dropped trees' contribution (lines 727-733). -/
def itScoresVal1 (cfg : DartCfg) (s : DartState) (o : DartOracle) :
    ℕ → ℚ :=
  if 0 < itTD cfg s o ∧ cfg.hasValidation then
    update_modelscores s.ensemble DTree.onVal false s.scoresVal
      (itDropped cfg s o)
  else s.scoresVal

/-- Stage of the loop body: `metric_on_training_dropout` (line 724). -/
def itMetricTrainDropout (cfg : DartCfg) (s : DartState) (o : DartOracle) :
    ℚ :=
  if 0 < itTD cfg s o then cfg.scorerTrain (itScoresTrain1 cfg s o) else 0

/-- Stage of the loop body: `metric_on_validation_dropout` (line 731). -/
def itMetricValDropout (cfg : DartCfg) (s : DartState) (o : DartOracle) :
    ℚ :=
  if 0 < itTD cfg s o ∧ cfg.hasValidation then
    cfg.scorerVal (itScoresVal1 cfg s o)
  else 0

/-- Stage of the loop body: `dropout_better_than_full` (lines 736-744). -/
def itDropoutBetter (cfg : DartCfg) (s : DartState) (o : DartOracle) :
    Bool :=
  if 0 < itTD cfg s o then
    if cfg.hasValidation then
      decide (s.metricVal < itMetricValDropout cfg s o)
    else decide (s.metricTrain < itMetricTrainDropout cfg s o)
  else false

/-- Stage of the loop body: the weight vector with the dropped trees
zeroed (lines 746-752). -/
def itDroppedWeights (cfg : DartCfg) (s : DartState) (o : DartOracle) :
    List ℚ :=
  if 0 < itTD cfg s o then
    (itDropped cfg s o).foldl (fun w idx => w.set idx 0)
      (get_weights s.ensemble)
  else get_weights s.ensemble

/-- Stage of the loop body: the ensemble after zeroing the dropped
trees' weights (line 753). -/
def itEnsemble1 (cfg : DartCfg) (s : DartState) (o : DartOracle) :
    Ensemble :=
  if 0 < itTD cfg s o then
    update_ensemble_weights s.ensemble (itDroppedWeights cfg s o)
  else s.ensemble

/-- Stage of the loop body: the weight `get_weight_last_tree` computes
for the freshly fitted tree (line 771). -/
def itTreeWeight (cfg : DartCfg) (s : DartState) (o : DartOracle) : ℚ :=
  get_weight_last_tree cfg.normalize_type cfg.shrinkage
    (itDropped cfg s o).length cfg.scorerTrain (itScoresTrain1 cfg s o)
    o.newTree

/-- Stage of the loop body: the ensemble after pushing the new tree
(line 773). -/
def itEnsemble2 (cfg : DartCfg) (s : DartState) (o : DartOracle) :
    Ensemble :=
  itEnsemble1 cfg s o ++ [(o.newTree, itTreeWeight cfg s o)]

/-- Stage of the loop body: `lastTreeIndex` (line 776). -/
def itLastIdx (cfg : DartCfg) (s : DartState) (o : DartOracle) : ℕ :=
  (itEnsemble2 cfg s o).length - 1

/-- Stage of the loop body: the training scores including the new tree
(lines 779-781). -/
def itScoresTrain2 (cfg : DartCfg) (s : DartState) (o : DartOracle) :
    ℕ → ℚ :=
  update_modelscores (itEnsemble2 cfg s o) DTree.onTrain true
    (itScoresTrain1 cfg s o) [itLastIdx cfg s o]

/-- Stage of the loop body: `metric_on_training` after the fit
(line 782). -/
def itMetricTrainFit (cfg : DartCfg) (s : DartState) (o : DartOracle) :
    ℚ :=
  cfg.scorerTrain (itScoresTrain2 cfg s o)

/-- Stage of the loop body: the validation scores including the new tree
(lines 784-789). -/
def itScoresVal2 (cfg : DartCfg) (s : DartState) (o : DartOracle) :
    ℕ → ℚ :=
  if cfg.hasValidation then
    update_modelscores (itEnsemble2 cfg s o) DTree.onVal true
      (itScoresVal1 cfg s o) [itLastIdx cfg s o]
  else itScoresVal1 cfg s o

/-- Stage of the loop body: `metric_on_validation` after the fit
(lines 784-789). -/
def itMetricValFit (cfg : DartCfg) (s : DartState) (o : DartOracle) : ℚ :=
  if cfg.hasValidation then cfg.scorerVal (itScoresVal2 cfg s o)
  else lowestScore

/-- Stage of the loop body: `fit_after_dropout_better_than_full`
(lines 791-799). -/
def itFit (cfg : DartCfg) (s : DartState) (o : DartOracle) : Bool :=
  if 0 < itTD cfg s o then
    if cfg.hasValidation then decide (s.metricVal < itMetricValFit cfg s o)
    else decide (s.metricTrain < itMetricTrainFit cfg s o)
  else false

/-- Stage of the loop body: the keep-the-drop condition of line 803. -/
def itKept (cfg : DartCfg) (s : DartState) (o : DartOracle) : Bool :=
  s.keep_drop && itFit cfg s o

/-- Stage of the loop body: the outcome of the keep/restore branch
(lines 803-841). -/
def itBranch (cfg : DartCfg) (s : DartState) (o : DartOracle) : BranchOut :=
  if itKept cfg s o then
    dartKeepBranch (itTD cfg s o) s.droppedBeforeCleaning
      (itScoresTrain2 cfg s o) (itScoresVal2 cfg s o)
      (get_weights s.ensemble) (itEnsemble2 cfg s o) (itDropped cfg s o)
      (itMetricTrainFit cfg s o) (itMetricValFit cfg s o)
  else
    dartRestoreBranch cfg (itTD cfg s o) s.droppedBeforeCleaning
      (itScoresTrain2 cfg s o) (itScoresVal2 cfg s o)
      (get_weights s.ensemble) (itEnsemble2 cfg s o) (itDropped cfg s o)
      (itTreeWeight cfg s o) (itLastIdx cfg s o) s.metricVal

/-- Stage of the loop body: the outcome of the count-based
permanent-dropping block (lines 843-930). -/
def itCB (cfg : DartCfg) (s : DartState) (o : DartOracle) :
    BranchOut × List ℤ × List ℕ :=
  dartCountBlock cfg (itTD cfg s o) (itFit cfg s o) (itBranch cfg s o)
    (s.counts ++ [(0 : ℤ)])

/-- Loop driver of `Dart::learn` (lines 689-698 and 1031): run while the
ensemble is below capacity, breaking at the start of an iteration when a
validation set is present, a patience is configured and the incremented
counter `m` exceeds `best_iter_ + valid_iterations_`.  Returns the final
state and the reports of the executed iterations. -/
def dartRun (cfg : DartCfg) (oracles : ℕ → DartOracle) :
    ℕ → DartState → DartState × List IterReport
  | 0, s => (s, [])
  | fuel + 1, s =>
    if s.ensemble.length < cfg.ntrees then
      if cfg.hasValidation ∧ 0 < cfg.valid_iterations ∧
          s.bestIter + cfg.valid_iterations < s.m then (s, [])
      else
        let step := dartIteration cfg s (oracles s.m)
        let rest := dartRun cfg oracles fuel step.1
        (rest.1, step.2 :: rest.2)
    else (s, [])

/-- Initialization phase of `Dart::learn` (lines 598-660): zeroed or
recomputed score caches, lowest-sentinel metrics (re-evaluated when
resuming from a non-empty ensemble), empty count vector, and the forced
`keep_drop = false` for counting sampling types (lines 628-633). -/
def dartInit (cfg : DartCfg) (ens0 : Ensemble) : DartState :=
  let resumed : Bool := !ens0.isEmpty
  { ensemble := ens0
    scoresTrain := ensembleScoreTrain ens0
    scoresVal := ensembleScoreVal ens0
    counts := []
    metricTrain := lowestScore
    metricVal := lowestScore
    bestMetricTrain :=
      if resumed then cfg.scorerTrain (ensembleScoreTrain ens0) else lowestScore
    bestMetricVal :=
      if resumed && cfg.hasValidation then cfg.scorerVal (ensembleScoreVal ens0)
      else lowestScore
    bestIter := if resumed then ens0.length - 1 else 0
    bestModel := if resumed then ens0.length - 1 else 0
    bestWeights := if resumed then get_weights ens0 else []
    m := 0
    droppedBeforeCleaning := 0
    keep_drop := if isCountType cfg.sample_type then false else cfg.keep_drop_cfg
    lastIterationGlobalScoring := 0 }

/-- Full `Dart::learn`: initialization, training loop, and the final
rollback to the best model on validation data (lines 1033-1040). -/
def dartLearn (cfg : DartCfg) (oracles : ℕ → DartOracle) (fuel : ℕ)
    (ens0 : Ensemble) : DartState × List IterReport :=
  let run := dartRun cfg oracles fuel (dartInit cfg ens0)
  let sf := run.1
  let ensR :=
    if cfg.hasValidation then
      update_ensemble_weights (sf.ensemble.take sf.bestModel) sf.bestWeights
    else sf.ensemble
  ({ sf with ensemble := ensR }, run.2)

/-- Modelled from the spec: one standard gradient-boosting iteration
(spec section 4.4) acting on the cached scores — the fitted tree is
appended with weight `w` and every instance's cached score grows by `w`
times the tree's output.  This is the comparator for the refinement
statement about `skip_drop = 1`. -/
def specBoostingStep (scores : ℕ → ℚ) (tree : ℕ → ℚ) (w : ℚ) : ℕ → ℚ :=
  fun i => scores i + w * tree i

/-- State of the `LambdaMartSelective::learn` loop that the early-stopping
claim is about. -/
structure LMSState where
  m : ℕ
  best_model : ℕ
  ensembleSize : ℕ
  appended : List ℕ

/-- Early-stopping skeleton of the `LambdaMartSelective::learn` training
loop (lambdamartselective.cc lines 166-276): iterate `m` while below the
tree capacity, breaking when a validation set and a patience are
configured and `m > best_model_ + valid_iterations_`; each executed
iteration fits and appends exactly one tree (`ensemble_model_.push`),
recording its iteration index, and on metric improvement `best_model_`
becomes `ensemble_model_.get_size() - 1`.  Whether iteration `m` improves
the tracked metric is abstracted by the oracle `improves`, standing for
the external metric comparison. -/
def lmsRun (ntrees p : ℕ) (useValidation : Bool) (improves : ℕ → Bool) :
    ℕ → LMSState → LMSState
  | 0, s => s
  | fuel + 1, s =>
    if s.m < ntrees then
      if useValidation ∧ 0 < p ∧ s.best_model + p < s.m then s
      else
        let size1 := s.ensembleSize + 1
        lmsRun ntrees p useValidation improves fuel
          { m := s.m + 1
            best_model := if improves s.m then size1 - 1 else s.best_model
            ensembleSize := size1
            appended := s.appended ++ [s.m] }
    else s

/-- Hyperparameters compared by `Dart::import_model_state`
(lines 1096-1104). -/
structure DartHyper where
  shrinkage : ℚ
  nthresholds : ℕ
  nleaves : ℕ
  minleafsupport : ℕ
  valid_iterations : ℕ
  sample_type : SamplingType
  normalize_type : NormalizationType
  rate_drop : ℚ
  skip_drop : ℚ

/-- The parts of a Dart model touched by `import_model_state`. -/
structure DartModelState where
  hyper : DartHyper
  ensemble : Ensemble

/-- Argument of `import_model_state`: another Dart model (the
`dynamic_cast` succeeds) or any other `LTR_Algorithm` (the cast throws
`std::bad_cast`, caught inside the function). -/
inductive LTRState
  | dart (d : DartModelState)
  | otherAlgorithm

/-- Hyperparameter comparison of `Dart::import_model_state`
(lines 1096-1104): shrinkage differs beyond the 1e-6 tolerance, or any
of the other listed parameters differs exactly. -/
def hyperMismatch (a b : DartHyper) : Prop :=
  1 / 1000000 < |a.shrinkage - b.shrinkage| ∨
  a.nthresholds ≠ b.nthresholds ∨
  a.nleaves ≠ b.nleaves ∨
  a.minleafsupport ≠ b.minleafsupport ∨
  a.valid_iterations ≠ b.valid_iterations ∨
  a.sample_type ≠ b.sample_type ∨
  a.normalize_type ≠ b.normalize_type ∨
  a.rate_drop ≠ b.rate_drop ∨
  a.skip_drop ≠ b.skip_drop

instance (a b : DartHyper) : Decidable (hyperMismatch a b) := by
  unfold hyperMismatch
  infer_instance

/-- Embedding of `Dart::import_model_state` (lines 1089-1117): a non-Dart
argument or any hyperparameter mismatch yields `false` with both models
untouched; on success the other model's ensemble is moved into the
receiver (move assignment leaves the source ensemble empty). -/
def import_model_state (self : DartModelState) (other : LTRState) :
    Bool × DartModelState × LTRState :=
  match other with
  | .otherAlgorithm => (false, self, .otherAlgorithm)
  | .dart od =>
    if hyperMismatch self.hyper od.hyper then (false, self, .dart od)
    else (true, { self with ensemble := od.ensemble },
      .dart { od with ensemble := [] })

/-! Theorems.  Helper lemmas come first, then one theorem per claim
(with witnesses and counterexamples where required). -/

theorem update_modelscores_closed (ens : Ensemble) (view : DTree → ℕ → ℚ)
    (add : Bool) (S : List ℕ) (scores : ℕ → ℚ) :
    update_modelscores ens view add scores S = fun i =>
      scores i + (if add then 1 else -1) *
        (S.map (fun t => getWeight ens t * view (getTree ens t) i)).sum := by
  induction S generalizing scores with
  | nil => funext i; simp [update_modelscores]
  | cons t rest ih =>
    funext i
    show update_modelscores ens view add
      (fun j => scores j + (if add then 1 else -1) * getWeight ens t *
        view (getTree ens t) j) rest i = _
    rw [ih]
    simp only [List.map_cons, List.sum_cons]
    ring

/-- C2: for every cached score array, every list of tree indices and every
dataset view, applying `update_modelscores` with `add = true` and then
with `add = false` over the same list (or in the opposite order) restores
the score array exactly, at every instance. -/
theorem C2_incremental_update_inverse (ens : Ensemble) (view : DTree → ℕ → ℚ)
    (scores : ℕ → ℚ) (S : List ℕ) :
    update_modelscores ens view false
        (update_modelscores ens view true scores S) S = scores ∧
    update_modelscores ens view true
        (update_modelscores ens view false scores S) S = scores := by
  constructor <;>
    · rw [update_modelscores_closed, update_modelscores_closed]
      funext i
      norm_num

/-- C9: importing training state from a model with mismatched
hyperparameters (shrinkage beyond the 1e-6 tolerance, threshold count,
leaf count, minimum leaf support, early-stop rounds, sampling type,
normalization type, rate_drop or skip_drop) or from a non-Dart model
returns `false` and leaves the receiver and the argument unmodified; the
embedding is a total function, so no exception escapes. -/
theorem C9_import_model_state_mismatch (self : DartModelState)
    (other : LTRState)
    (h : ∀ od, other = .dart od → hyperMismatch self.hyper od.hyper) :
    import_model_state self other = (false, self, other) := by
  cases other with
  | otherAlgorithm => rfl
  | dart od =>
    simp only [import_model_state]
    rw [if_pos (h od rfl)]

theorem C9_witness :
    (∀ od, LTRState.dart ⟨⟨1/2, 0, 0, 0, 0, .UNIFORM, .TREE, 0, 0⟩, []⟩
        = .dart od →
      hyperMismatch ⟨1/10, 0, 0, 0, 0, .UNIFORM, .TREE, 0, 0⟩ od.hyper) ∧
    import_model_state
        ⟨⟨1/10, 0, 0, 0, 0, .UNIFORM, .TREE, 0, 0⟩, []⟩
        (.dart ⟨⟨1/2, 0, 0, 0, 0, .UNIFORM, .TREE, 0, 0⟩, []⟩)
      = (false, ⟨⟨1/10, 0, 0, 0, 0, .UNIFORM, .TREE, 0, 0⟩, []⟩,
         .dart ⟨⟨1/2, 0, 0, 0, 0, .UNIFORM, .TREE, 0, 0⟩, []⟩) := by
  have habs : (1 : ℚ) / 1000000 < |(1 : ℚ) / 10 - 1 / 2| := by
    have h1 : (1 : ℚ) / 10 - 1 / 2 = -(2 / 5) := by norm_num
    rw [h1, abs_neg, abs_of_nonneg (by norm_num : (0 : ℚ) ≤ 2 / 5)]
    norm_num
  have hmis : ∀ od,
      LTRState.dart ⟨⟨1/2, 0, 0, 0, 0, .UNIFORM, .TREE, 0, 0⟩, []⟩
        = .dart od →
      hyperMismatch ⟨1/10, 0, 0, 0, 0, .UNIFORM, .TREE, 0, 0⟩ od.hyper := by
    intro od hod
    cases hod
    exact Or.inl habs
  exact ⟨hmis, C9_import_model_state_mismatch _ _ hmis⟩

theorem lmsRun_invariant (ntrees p : ℕ) (improves : ℕ → Bool) (hp : 0 < p) :
    ∀ fuel s, s.ensembleSize = s.m → s.best_model ≤ s.m →
      s.m ≤ s.best_model + p + 1 →
      (lmsRun ntrees p true improves fuel s).ensembleSize
          = (lmsRun ntrees p true improves fuel s).m ∧
      (lmsRun ntrees p true improves fuel s).best_model
          ≤ (lmsRun ntrees p true improves fuel s).m ∧
      (lmsRun ntrees p true improves fuel s).m
          ≤ (lmsRun ntrees p true improves fuel s).best_model + p + 1 := by
  intro fuel
  induction fuel with
  | zero => intro s h1 h2 h3; exact ⟨h1, h2, h3⟩
  | succ fuel ih =>
    intro s h1 h2 h3
    rw [lmsRun]
    by_cases hm : s.m < ntrees
    · rw [if_pos hm]
      by_cases hbr : (true : Bool) = true ∧ 0 < p ∧ s.best_model + p < s.m
      · rw [if_pos hbr]; exact ⟨h1, h2, h3⟩
      · rw [if_neg hbr]
        have hguard : ¬ s.best_model + p < s.m := fun hc => hbr ⟨rfl, hp, hc⟩
        refine ih _ ?_ ?_ ?_
        · show s.ensembleSize + 1 = s.m + 1
          omega
        · by_cases himp : improves s.m = true <;> simp only [himp, if_true,
            if_false, Bool.false_eq_true] <;> omega
        · by_cases himp : improves s.m = true <;> simp only [himp, if_true,
            if_false, Bool.false_eq_true] <;> omega
    · rw [if_neg hm]; exact ⟨h1, h2, h3⟩

theorem lmsRun_appended_range (ntrees p : ℕ) (v : Bool) (improves : ℕ → Bool) :
    ∀ fuel s, ∃ n,
      (lmsRun ntrees p v improves fuel s).appended
          = s.appended ++ List.range' s.m n ∧
      (lmsRun ntrees p v improves fuel s).m = s.m + n := by
  intro fuel
  induction fuel with
  | zero => intro s; exact ⟨0, by simp [lmsRun], by simp [lmsRun]⟩
  | succ fuel ih =>
    intro s
    rw [lmsRun]
    by_cases hm : s.m < ntrees
    · rw [if_pos hm]
      by_cases hbr : v = true ∧ 0 < p ∧ s.best_model + p < s.m
      · rw [if_pos hbr]; exact ⟨0, by simp, by simp⟩
      · rw [if_neg hbr]
        obtain ⟨n, hap, hmn⟩ := ih
          { m := s.m + 1
            best_model := if improves s.m then s.ensembleSize + 1 - 1
              else s.best_model
            ensembleSize := s.ensembleSize + 1
            appended := s.appended ++ [s.m] }
        refine ⟨n + 1, ?_, ?_⟩
        · rw [hap, List.append_assoc]
          congr 1
        · rw [hmn]
          show s.m + 1 + n = s.m + (n + 1)
          omega
    · rw [if_neg hm]; exact ⟨0, by simp, by simp⟩

theorem dartIteration_m (cfg : DartCfg) (s : DartState) (o : DartOracle) :
    (dartIteration cfg s o).1.m = s.m + 1 := rfl

theorem dartIteration_bestIter (cfg : DartCfg) (s : DartState)
    (o : DartOracle) :
    (dartIteration cfg s o).1.bestIter
      = if dartBestImproved cfg s (itCB cfg s o).1 then s.m
        else s.bestIter := rfl

theorem dartRun_m (cfg : DartCfg) (oracles : ℕ → DartOracle) :
    ∀ (fuel : ℕ) (s : DartState),
      (dartRun cfg oracles fuel s).1.m
        = s.m + (dartRun cfg oracles fuel s).2.length := by
  intro fuel
  induction fuel with
  | zero => intro s; simp [dartRun]
  | succ fuel ih =>
    intro s
    rw [dartRun]
    by_cases hcap : s.ensemble.length < cfg.ntrees
    · rw [if_pos hcap]
      by_cases hbr : cfg.hasValidation = true ∧ 0 < cfg.valid_iterations ∧
          s.bestIter + cfg.valid_iterations < s.m
      · rw [if_pos hbr]; simp
      · rw [if_neg hbr]
        simp only [List.length_cons]
        rw [ih, dartIteration_m]
        omega
    · rw [if_neg hcap]; simp

theorem dartRun_m_le (cfg : DartCfg) (oracles : ℕ → DartOracle) (p : ℕ)
    (hvi : cfg.valid_iterations = p) (hval : cfg.hasValidation = true)
    (hp : 0 < p) :
    ∀ (fuel : ℕ) (s : DartState), s.m ≤ s.bestIter + p + 1 →
      (dartRun cfg oracles fuel s).1.m
        ≤ (dartRun cfg oracles fuel s).1.bestIter + p + 1 := by
  intro fuel
  induction fuel with
  | zero => intro s h; simpa [dartRun] using h
  | succ fuel ih =>
    intro s h
    rw [dartRun]
    by_cases hcap : s.ensemble.length < cfg.ntrees
    · rw [if_pos hcap]
      by_cases hbr : cfg.hasValidation = true ∧ 0 < cfg.valid_iterations ∧
          s.bestIter + cfg.valid_iterations < s.m
      · rw [if_pos hbr]; exact h
      · rw [if_neg hbr]
        simp only []
        have hguard : ¬ s.bestIter + p < s.m := fun hc =>
          hbr ⟨hval, by rw [hvi]; exact hp, by rw [hvi]; exact hc⟩
        refine ih _ ?_
        rw [dartIteration_m, dartIteration_bestIter]
        by_cases himp :
            dartBestImproved cfg s (itCB cfg s (oracles s.m)).1 = true
        · rw [if_pos himp]
          omega
        · rw [if_neg himp]
          omega
    · rw [if_neg hcap]; exact h

/-- C3: with a validation set and a configured patience `p`, both training
loops the claim cites stop early.  `LambdaMartSelective::learn`
(lambdamartselective.cc lines 166-169, embedded as `lmsRun`): at most `p`
trees are appended at iterations past the final best-improvement
iteration `best_model`, and the loop stops within `p + 1` iterations of
it.  `Dart::learn` (ensemble_pruning.cc lines 693-698, embedded as
`dartRun`): each executed iteration produces one report and appends one
tree, at most `p` of the executed iterations have an index past the
final best iteration `bestIter`, and the loop breaks at the start of the
first iteration with `m > bestIter + p`.  The initial-state hypotheses
cover both starts of each loop in the source (`m = 0, best_model_ = 0`
from scratch; `m = size, best_model_ = size - 1` resp. `m = 0,
best_iter_ = size - 1` when resuming). -/
theorem C3_early_stopping (ntrees p fuel : ℕ) (improves : ℕ → Bool)
    (s : LMSState) (cfg : DartCfg) (oracles : ℕ → DartOracle)
    (fuel2 : ℕ) (sd : DartState) (hp : 0 < p)
    (hsz : s.ensembleSize = s.m)
    (happ : s.appended = []) (hbm : s.best_model ≤ s.m)
    (hm : s.m ≤ s.best_model + p + 1)
    (hvi : cfg.valid_iterations = p) (hval : cfg.hasValidation = true)
    (hdm : sd.m ≤ sd.bestIter + p + 1) :
    ((lmsRun ntrees p true improves fuel s).appended.filter
      (fun i => (lmsRun ntrees p true improves fuel s).best_model < i)).length
        ≤ p ∧
    (lmsRun ntrees p true improves fuel s).m
        ≤ (lmsRun ntrees p true improves fuel s).best_model + p + 1 ∧
    (dartRun cfg oracles fuel2 sd).1.m
        = sd.m + (dartRun cfg oracles fuel2 sd).2.length ∧
    ((List.range' sd.m (dartRun cfg oracles fuel2 sd).2.length).filter
      (fun i => (dartRun cfg oracles fuel2 sd).1.bestIter < i)).length
        ≤ p ∧
    (dartRun cfg oracles fuel2 sd).1.m
        ≤ (dartRun cfg oracles fuel2 sd).1.bestIter + p + 1 := by
  obtain ⟨n, hap, hmn⟩ := lmsRun_appended_range ntrees p true improves fuel s
  obtain ⟨-, -, hinv⟩ := lmsRun_invariant ntrees p improves hp fuel s hsz hbm hm
  have hmd := dartRun_m cfg oracles fuel2 sd
  have hinvd := dartRun_m_le cfg oracles p hvi hval hp fuel2 sd hdm
  refine ⟨?_, hinv, hmd, ?_, hinvd⟩
  · set sf := lmsRun ntrees p true improves fuel s with hsf
    rw [hap, happ, List.nil_append]
    have hnodup : ((List.range' s.m n).filter
        (fun i => sf.best_model < i)).Nodup :=
      (List.nodup_range' s.m n).filter _
    have hsub : ∀ i ∈ (List.range' s.m n).filter (fun i => sf.best_model < i),
        i ∈ Finset.Ioc sf.best_model (sf.best_model + p) := by
      intro i hi
      rw [List.mem_filter] at hi
      obtain ⟨hir, hib⟩ := hi
      rw [List.mem_range'_1] at hir
      rw [Finset.mem_Ioc]
      constructor
      · exact of_decide_eq_true hib
      · omega
    calc ((List.range' s.m n).filter (fun i => sf.best_model < i)).length
        = ((List.range' s.m n).filter
            (fun i => sf.best_model < i)).toFinset.card :=
          (List.toFinset_card_of_nodup hnodup).symm
      _ ≤ (Finset.Ioc sf.best_model (sf.best_model + p)).card := by
          apply Finset.card_le_card
          intro i hi
          rw [List.mem_toFinset] at hi
          exact hsub i hi
      _ = p := by rw [Nat.card_Ioc]; omega
  · set rf := dartRun cfg oracles fuel2 sd with hrf
    have hnodup : ((List.range' sd.m rf.2.length).filter
        (fun i => rf.1.bestIter < i)).Nodup :=
      (List.nodup_range' sd.m rf.2.length).filter _
    have hsub : ∀ i ∈ (List.range' sd.m rf.2.length).filter
        (fun i => rf.1.bestIter < i),
        i ∈ Finset.Ioc rf.1.bestIter (rf.1.bestIter + p) := by
      intro i hi
      rw [List.mem_filter] at hi
      obtain ⟨hir, hib⟩ := hi
      rw [List.mem_range'_1] at hir
      rw [Finset.mem_Ioc]
      constructor
      · exact of_decide_eq_true hib
      · omega
    calc ((List.range' sd.m rf.2.length).filter
          (fun i => rf.1.bestIter < i)).length
        = ((List.range' sd.m rf.2.length).filter
            (fun i => rf.1.bestIter < i)).toFinset.card :=
          (List.toFinset_card_of_nodup hnodup).symm
      _ ≤ (Finset.Ioc rf.1.bestIter (rf.1.bestIter + p)).card := by
          apply Finset.card_le_card
          intro i hi
          rw [List.mem_toFinset] at hi
          exact hsub i hi
      _ = p := by rw [Nat.card_Ioc]; omega

theorem C3_witness :
    0 < 2 ∧ (⟨0, 0, 0, []⟩ : LMSState).ensembleSize = 0 ∧
    (⟨6, 1, 2, .UNIFORM, .NONE, 0, 1, false, true,
      fun _ => 0, fun _ => 0⟩ : DartCfg).hasValidation = true ∧
    (dartInit
      (⟨6, 1, 2, .UNIFORM, .NONE, 0, 1, false, true,
        fun _ => 0, fun _ => 0⟩ : DartCfg) []).m ≤
      (dartInit
        (⟨6, 1, 2, .UNIFORM, .NONE, 0, 1, false, true,
          fun _ => 0, fun _ => 0⟩ : DartCfg) []).bestIter + 2 + 1 ∧
    ((lmsRun 6 2 true (fun m => m == 1) 10 ⟨0, 0, 0, []⟩).appended.filter
      (fun i => (lmsRun 6 2 true (fun m => m == 1) 10 ⟨0, 0, 0, []⟩).best_model
        < i)).length ≤ 2 ∧
    ((List.range'
        (dartInit
          (⟨6, 1, 2, .UNIFORM, .NONE, 0, 1, false, true,
            fun _ => 0, fun _ => 0⟩ : DartCfg) []).m
        (dartRun
          ⟨6, 1, 2, .UNIFORM, .NONE, 0, 1, false, true,
           fun _ => 0, fun _ => 0⟩
          (fun _ => ⟨0, [], [], ⟨fun _ => 1, fun _ => 1⟩⟩) 3
          (dartInit
            ⟨6, 1, 2, .UNIFORM, .NONE, 0, 1, false, true,
             fun _ => 0, fun _ => 0⟩ [])).2.length).filter
      (fun i => (dartRun
          ⟨6, 1, 2, .UNIFORM, .NONE, 0, 1, false, true,
           fun _ => 0, fun _ => 0⟩
          (fun _ => ⟨0, [], [], ⟨fun _ => 1, fun _ => 1⟩⟩) 3
          (dartInit
            ⟨6, 1, 2, .UNIFORM, .NONE, 0, 1, false, true,
             fun _ => 0, fun _ => 0⟩ [])).1.bestIter < i)).length ≤ 2 := by
  have h := C3_early_stopping 6 2 10 (fun m => m == 1) ⟨0, 0, 0, []⟩
    ⟨6, 1, 2, .UNIFORM, .NONE, 0, 1, false, true,
     fun _ => 0, fun _ => 0⟩
    (fun _ => ⟨0, [], [], ⟨fun _ => 1, fun _ => 1⟩⟩) 3
    (dartInit
      ⟨6, 1, 2, .UNIFORM, .NONE, 0, 1, false, true,
       fun _ => 0, fun _ => 0⟩ [])
    (by decide) rfl rfl (by decide) (by decide) rfl rfl (by decide)
  exact ⟨by decide, rfl, rfl, by decide, h.1, h.2.2.2.1⟩

/-- C4 counterexample: with the fractional rate 0.96 on 10 trees the
computed prune count is 10, reaching the number of trees, yet the run
does not abort: it selects trees and zeroes their weights, so the claim
fails for fractional rates. -/
theorem C4_cex_fraction_not_aborted :
    estimatorsToPrune (24/25) 10 = 10 ∧
    (epLearn (24/25) .LAST none 10 1 (fun _ _ => 0) (fun _ => 0) []
      [5]).outcome ≠ .aborted ∧
    (epLearn (24/25) .LAST none 10 1 (fun _ _ => 0) (fun _ => 0) []
      [5]).pruned ≠ ∅ ∧
    (epLearn (24/25) .LAST none 10 1 (fun _ _ => 0) (fun _ => 0) []
      [5]).weights ≠ [5] := by
  have hk : estimatorsToPrune (24/25) 10 = 10 := by
    norm_num [estimatorsToPrune, round_eq]
    decide
  have hcond : ¬ (¬ (24/25 : ℚ) < 1 ∧ 10 ≤ estimatorsToPrune (24/25) 10) :=
    fun h => h.1 (by norm_num)
  refine ⟨hk, ?_, ?_, ?_⟩ <;>
    · simp only [epLearn]
      rw [if_neg hcond, hk]
      decide

/-- C4 (amended): only when the prune count is given as an absolute count
(rate at least 1) does reaching or exceeding the number of trees make
`EnsemblePruning::learn` abort with a message before selecting any tree,
leaving the model weights unchanged; the fractional branch performs no
such check. -/
theorem C4_absolute_overprune_aborts (rate : ℚ) (method : PruningMethod)
    (lineSearch : Option LineSearchOut) (numFeatures numInstances : ℕ)
    (features : ℕ → ℕ → ℚ) (scorer : (ℕ → ℚ) → ℚ) (draws : List ℕ)
    (w0 : List ℚ) (habs : ¬ rate < 1)
    (hk : numFeatures ≤ estimatorsToPrune rate numFeatures) :
    epLearn rate method lineSearch numFeatures numInstances features scorer
        draws w0
      = ⟨w0, ∅, .aborted, estimatorsToPrune rate numFeatures⟩ := by
  unfold epLearn
  rw [if_pos ⟨habs, hk⟩]

theorem C4_witness :
    ¬ (12 : ℚ) < 1 ∧ 10 ≤ estimatorsToPrune 12 10 ∧
    epLearn 12 .RANDOM none 10 0 (fun _ _ => 0) (fun _ => 0) [] [3, 4]
      = ⟨[3, 4], ∅, .aborted, 12⟩ := by
  have he : estimatorsToPrune 12 10 = 12 := by
    norm_num [estimatorsToPrune]
    decide
  refine ⟨by norm_num, by rw [he]; decide, ?_⟩
  have h := C4_absolute_overprune_aborts 12 .RANDOM none 10 0
    (fun _ _ => 0) (fun _ => 0) [] [3, 4] (by norm_num) (by rw [he]; decide)
  rw [h, he]

/-- C6 counterexample: three policies, not two, demand the line-search
collaborator (LOW_WEIGHTS, QUALITY_LOSS and SCORE_LOSS all throw when it
is missing), and on that failure path the model's weight vector has
already been reset to all ones, so a model whose weights were not all
ones is mutated by the failed call. -/
theorem C6_cex_three_policies_and_mutation :
    (Finset.univ.filter
      (fun m : PruningMethod => methodNeedsLineSearch m = true)).card = 3 ∧
    (epLearn (1/2) .SCORE_LOSS none 4 1 (fun _ _ => 0) (fun _ => 0) []
      [7, 7, 7, 7]).outcome = .threwNoLS ∧
    (epLearn (1/2) .SCORE_LOSS none 4 1 (fun _ _ => 0) (fun _ => 0) []
      [7, 7, 7, 7]).weights ≠ [7, 7, 7, 7] := by
  have hcond : ¬ (¬ (1/2 : ℚ) < 1 ∧ 4 ≤ estimatorsToPrune (1/2) 4) :=
    fun h => h.1 (by norm_num)
  refine ⟨by decide, ?_, ?_⟩ <;>
    · simp only [epLearn]
      rw [if_neg hcond]
      decide

/-- C6 (amended): exactly three policies (LOW_WEIGHTS, QUALITY_LOSS,
SCORE_LOSS) require the line-search collaborator; selecting one of them
without it makes `learn` throw before any selection or weight zeroing,
but after the weight vector has been reset to all ones. -/
theorem C6_no_linesearch_throws (rate : ℚ) (method : PruningMethod)
    (numFeatures numInstances : ℕ) (features : ℕ → ℕ → ℚ)
    (scorer : (ℕ → ℚ) → ℚ) (draws : List ℕ) (w0 : List ℚ)
    (hm : methodNeedsLineSearch method = true)
    (hnoabort : ¬ (¬ rate < 1 ∧ numFeatures ≤ estimatorsToPrune rate numFeatures)) :
    (∀ m : PruningMethod, methodNeedsLineSearch m = true ↔
      (m = .LOW_WEIGHTS ∨ m = .QUALITY_LOSS ∨ m = .SCORE_LOSS)) ∧
    epLearn rate method none numFeatures numInstances features scorer draws w0
      = ⟨List.replicate numFeatures 1, ∅, .threwNoLS,
         estimatorsToPrune rate numFeatures⟩ := by
  refine ⟨by decide, ?_⟩
  unfold epLearn
  rw [if_neg hnoabort]
  rw [hm]

theorem C6_witness :
    methodNeedsLineSearch .LOW_WEIGHTS = true ∧
    ¬ (¬ (1/2 : ℚ) < 1 ∧ 3 ≤ estimatorsToPrune (1/2) 3) ∧
    epLearn (1/2) .LOW_WEIGHTS none 3 1 (fun _ _ => 0) (fun _ => 0) [] []
      = ⟨[1, 1, 1], ∅, .threwNoLS, 2⟩ := by
  have he : estimatorsToPrune (1/2) 3 = 2 := by
    norm_num [estimatorsToPrune, round_eq]
    decide
  have hcond : ¬ (¬ (1/2 : ℚ) < 1 ∧ 3 ≤ estimatorsToPrune (1/2) 3) :=
    fun h => h.1 (by norm_num)
  refine ⟨by decide, hcond, ?_⟩
  have h := C6_no_linesearch_throws (1/2) .LOW_WEIGHTS 3 1
    (fun _ _ => 0) (fun _ => 0) [] [] (by decide) hcond
  rw [h.2, he]
  decide

/-- C8: pruning 10 trees at rate 0.5 with the LAST policy gives prune
count 5 and zeroes exactly the trees at 1-indexed positions 6 to 10
(0-based indices 5 to 9), while positions 1 to 5 keep the weight they
carried into the selection step; this holds for every dataset, metric
and prior weight vector. -/
theorem C8_last_half_of_ten (numInstances : ℕ) (features : ℕ → ℕ → ℚ)
    (scorer : (ℕ → ℚ) → ℚ) (draws : List ℕ) (w0 : List ℚ) :
    (epLearn (1/2) .LAST none 10 numInstances features scorer draws
      w0).pruneCount = 5 ∧
    (epLearn (1/2) .LAST none 10 numInstances features scorer draws
      w0).pruned = ({5, 6, 7, 8, 9} : Finset ℕ) ∧
    (epLearn (1/2) .LAST none 10 numInstances features scorer draws
      w0).weights = [1, 1, 1, 1, 1, 0, 0, 0, 0, 0] ∧
    (epLearn (1/2) .LAST none 10 numInstances features scorer draws
      w0).outcome = .ok := by
  have he : estimatorsToPrune (1/2) 10 = 5 := by
    norm_num [estimatorsToPrune, round_eq]
    decide
  have hno : ¬ (¬ (1/2 : ℚ) < 1 ∧ 10 ≤ estimatorsToPrune (1/2) 10) :=
    fun h => h.1 (by norm_num)
  have hred : epLearn (1/2) .LAST none 10 numInstances features scorer draws w0
      = ⟨zeroPruned (List.replicate 10 1) (last_pruning 10 5),
         last_pruning 10 5, .ok, 5⟩ := by
    simp only [epLearn]
    rw [if_neg hno, he]
    rfl
  rw [hred]
  exact ⟨rfl, by decide, by decide, rfl⟩

theorem foldl_insert_stall (n k : ℕ) (draws : List ℕ) (acc : Finset ℕ)
    (h : k ≤ acc.card) :
    draws.foldl
      (fun acc d => if acc.card < k then insert (d % n) acc else acc) acc
      = acc := by
  induction draws with
  | nil => rfl
  | cons d rest ih => simpa [Nat.not_lt.mpr h] using ih

theorem random_pruning_go (n k : ℕ) (hn : 0 < n) :
    ∀ (draws : List ℕ) (acc : Finset ℕ), acc.card ≤ k →
      acc ⊆ Finset.range n →
      k ≤ (acc ∪ (draws.map (· % n)).toFinset).card →
      (draws.foldl
        (fun acc d => if acc.card < k then insert (d % n) acc else acc)
        acc).card = k ∧
      draws.foldl
        (fun acc d => if acc.card < k then insert (d % n) acc else acc) acc
        ⊆ Finset.range n := by
  intro draws
  induction draws with
  | nil =>
    intro acc h1 h2 h3
    simp only [List.foldl_nil]
    refine ⟨?_, h2⟩
    simp only [List.map_nil, List.toFinset_nil, Finset.union_empty] at h3
    omega
  | cons d rest ih =>
    intro acc h1 h2 h3
    simp only [List.foldl_cons]
    by_cases hc : acc.card < k
    · rw [if_pos hc]
      apply ih
      · calc (insert (d % n) acc).card ≤ acc.card + 1 :=
            Finset.card_insert_le _ _
          _ ≤ k := hc
      · intro x hx
        rcases Finset.mem_insert.mp hx with h | h
        · subst h; exact Finset.mem_range.mpr (Nat.mod_lt _ hn)
        · exact h2 h
      · have hset : acc ∪ ((d :: rest).map (· % n)).toFinset
            = insert (d % n) acc ∪ (rest.map (· % n)).toFinset := by
          simp only [List.map_cons, List.toFinset_cons]
          ext x
          simp only [Finset.mem_union, Finset.mem_insert]
          tauto
        rw [hset] at h3
        exact h3
    · rw [if_neg hc]
      rw [foldl_insert_stall n k rest acc (Nat.not_lt.mp hc)]
      exact ⟨by omega, h2⟩

theorem random_pruning_card (n k : ℕ) (draws : List ℕ) (hn : 0 < n)
    (hcov : k ≤ ((draws.map (· % n)).toFinset).card) :
    (random_pruning n k draws).card = k ∧
    random_pruning n k draws ⊆ Finset.range n := by
  have h := random_pruning_go n k hn draws ∅ (by simp) (by simp)
    (by simpa using hcov)
  exact h

theorem take_sortIdx_card (n k : ℕ) (le : ℕ → ℕ → Bool) (hk : k ≤ n) :
    ((sortIdxBy n le).take k).toFinset.card = k ∧
    ((sortIdxBy n le).take k).toFinset ⊆ Finset.range n := by
  have hperm : List.Perm (sortIdxBy n le) (List.range n) :=
    List.mergeSort_perm _ _
  have hnodup : (sortIdxBy n le).Nodup :=
    hperm.nodup_iff.mpr (List.nodup_range n)
  have hnodupT : ((sortIdxBy n le).take k).Nodup :=
    List.Nodup.sublist (List.take_sublist _ _) hnodup
  constructor
  · rw [List.toFinset_card_of_nodup hnodupT, List.length_take,
      hperm.length_eq, List.length_range]
    omega
  · intro x hx
    rw [List.mem_toFinset] at hx
    have hmem := List.mem_of_mem_take hx
    rw [Finset.mem_range]
    exact List.mem_range.mp (hperm.mem_iff.mp hmem)

theorem last_pruning_spec (n k : ℕ) (hk : k < n) :
    (last_pruning n k).card = k ∧ last_pruning n k ⊆ Finset.range n := by
  constructor
  · have hinj : Set.InjOn (fun i => n - i) (Finset.Icc 1 k) := by
      intro a ha b hb hab
      rw [Finset.mem_coe, Finset.mem_Icc] at ha hb
      simp only at hab
      omega
    rw [last_pruning, Finset.card_image_of_injOn hinj, Nat.card_Icc]
    omega
  · intro x hx
    rw [last_pruning, Finset.mem_image] at hx
    obtain ⟨i, hi, rfl⟩ := hx
    rw [Finset.mem_Icc] at hi
    rw [Finset.mem_range]
    omega

theorem skip_selected_spec (n k : ℕ) (h1 : 1 ≤ k) (hk : k < n) :
    ((Finset.range (n - k)).image
      (fun i : ℕ => (⌈(i : ℚ) * ((n : ℚ) / ((n - k : ℕ) : ℚ))⌉).toNat)).card
        = n - k ∧
    (Finset.range (n - k)).image
      (fun i : ℕ => (⌈(i : ℚ) * ((n : ℚ) / ((n - k : ℕ) : ℚ))⌉).toNat)
        ⊆ Finset.range n := by
  set t := n - k with ht
  have htpos : 0 < t := by omega
  have htq : (0 : ℚ) < (t : ℚ) := by exact_mod_cast htpos
  set s : ℚ := (n : ℚ) / (t : ℚ) with hs
  have hs1 : 1 < s := by
    rw [hs, lt_div_iff htq, one_mul]
    exact_mod_cast (by omega : t < n)
  have hts : (t : ℚ) * s = (n : ℚ) := by
    rw [hs, mul_div_cancel₀]
    exact ne_of_gt htq
  have hceil_lt : ∀ i : ℕ, i < t → (⌈(i : ℚ) * s⌉ : ℤ) < (n : ℤ) := by
    intro i hi
    have hle : (i : ℚ) * s ≤ ((n : ℚ) - s) := by
      have : (i : ℚ) ≤ (t : ℚ) - 1 := by
        have : (i : ℚ) + 1 ≤ (t : ℚ) := by exact_mod_cast hi
        linarith
      calc (i : ℚ) * s ≤ ((t : ℚ) - 1) * s := by
            apply mul_le_mul_of_nonneg_right this (by linarith)
        _ = (t : ℚ) * s - s := by ring
        _ = (n : ℚ) - s := by rw [hts]
    have hlt : ((n : ℚ) - s) < (n : ℚ) - 1 := by linarith
    have : (⌈(i : ℚ) * s⌉ : ℤ) ≤ (n : ℤ) - 1 := by
      rw [Int.ceil_le]
      push_cast
      linarith
    omega
  have hceil_nonneg : ∀ i : ℕ, (0 : ℤ) ≤ ⌈(i : ℚ) * s⌉ := by
    intro i
    apply Int.ceil_nonneg
    positivity
  have hmono : ∀ i j : ℕ, i < j → j < t →
      (⌈(i : ℚ) * s⌉ : ℤ) < ⌈(j : ℚ) * s⌉ := by
    intro i j hij hj
    have h1' : (⌈(i : ℚ) * s⌉ : ℤ) + 1 = ⌈(i : ℚ) * s + 1⌉ :=
      (Int.ceil_add_one _).symm
    have h2' : (⌈(i : ℚ) * s + 1⌉ : ℤ) ≤ ⌈(j : ℚ) * s⌉ := by
      apply Int.ceil_le_ceil
      have hij' : (i : ℚ) + 1 ≤ (j : ℚ) := by exact_mod_cast hij
      nlinarith
    omega
  constructor
  · rw [Finset.card_image_of_injOn]
    · exact Finset.card_range t
    · intro a ha b hb hab
      rw [Finset.mem_coe, Finset.mem_range] at ha hb
      by_contra hne
      have key : ∀ x y : ℕ, x < y → y < t →
          (⌈(x : ℚ) * s⌉).toNat ≠ (⌈(y : ℚ) * s⌉).toNat := by
        intro x y hxy hy
        have hlt := hmono x y hxy hy
        have hx0 := hceil_nonneg x
        have hy0 := hceil_nonneg y
        omega
      rcases Nat.lt_or_ge a b with h | h
      · exact key a b h hb hab
      · have h' : b < a := by omega
        exact key b a h' ha hab.symm
  · intro x hx
    rw [Finset.mem_image] at hx
    obtain ⟨i, hi, rfl⟩ := hx
    rw [Finset.mem_range] at hi ⊢
    have := hceil_lt i hi
    have := hceil_nonneg i
    omega

theorem skip_pruning_spec (n k : ℕ) (h1 : 1 ≤ k) (hk : k < n) :
    (skip_pruning n k).card = k ∧ skip_pruning n k ⊆ Finset.range n := by
  obtain ⟨hcard, hsub⟩ := skip_selected_spec n k h1 hk
  constructor
  · simp only [skip_pruning]
    rw [Finset.filter_not, Finset.filter_mem_eq_inter,
      Finset.inter_eq_right.mpr hsub, Finset.card_sdiff hsub, hcard,
      Finset.card_range]
    omega
  · simp only [skip_pruning]
    exact Finset.filter_subset _ _

theorem zeroPruned_length (w : List ℚ) (pruned : Finset ℕ) :
    (zeroPruned w pruned).length = w.length := by
  simp [zeroPruned]

theorem zeroPruned_getD (w : List ℚ) (pruned : Finset ℕ) (i : ℕ)
    (hi : i < w.length) :
    (zeroPruned w pruned).getD i 0
      = if i ∈ pruned then 0 else w.getD i 0 := by
  rw [zeroPruned, List.getD_eq_getElem?_getD, List.getElem?_mapIdx,
    List.getD_eq_getElem?_getD, List.getElem?_eq_getElem hi]
  simp only [Option.map_some', Option.getD_some]

theorem importWeightsGo_length (pruned : Finset ℕ) :
    ∀ w f ls, (importWeightsGo pruned f ls w).length = w.length := by
  intro w
  induction w with
  | nil => intro f ls; rfl
  | cons x rest ih =>
    intro f ls
    rw [importWeightsGo]
    by_cases hf : f ∈ pruned
    · rw [if_pos hf]; simp [ih]
    · rw [if_neg hf]; simp [ih]

theorem importWeightsGo_pruned_getD (pruned : Finset ℕ) :
    ∀ w f ls i, i < w.length → (f + i) ∈ pruned →
      (importWeightsGo pruned f ls w).getD i 0 = w.getD i 0 := by
  intro w
  induction w with
  | nil => intro f ls i hi; simp at hi
  | cons x rest ih =>
    intro f ls i hi hmem
    rw [importWeightsGo]
    by_cases hf : f ∈ pruned
    · rw [if_pos hf]
      cases i with
      | zero => rfl
      | succ j =>
        show (importWeightsGo pruned (f + 1) ls rest).getD j 0
          = rest.getD j 0
        apply ih
        · simpa using hi
        · have : f + 1 + j = f + (j + 1) := by omega
          rw [this]
          exact hmem
    · rw [if_neg hf]
      cases i with
      | zero =>
        exact absurd (by simpa using hmem) hf
      | succ j =>
        show (importWeightsGo pruned (f + 1) ls.tail rest).getD j 0
          = rest.getD j 0
        apply ih
        · simpa using hi
        · have : f + 1 + j = f + (j + 1) := by omega
          rw [this]
          exact hmem

theorem importWeightsGo_free_getD (pruned : Finset ℕ) :
    ∀ w f ls, ls.length
        = ((Finset.Ico f (f + w.length)).filter (fun i => i ∉ pruned)).card →
      (∀ x ∈ ls, x ≠ 0) →
      ∀ i, i < w.length → (f + i) ∉ pruned →
      (importWeightsGo pruned f ls w).getD i 0 ≠ 0 := by
  intro w
  induction w with
  | nil => intro f ls _ _ i hi; simp at hi
  | cons x rest ih =>
    intro f ls hlen hnz i hi hfree
    have hsplit : Finset.Ico f (f + (x :: rest).length)
        = insert f (Finset.Ico (f + 1) (f + 1 + rest.length)) := by
      rw [List.length_cons]
      rw [show f + (rest.length + 1) = f + 1 + rest.length by omega]
      exact (Nat.Ico_insert_succ_left (by omega)).symm
    rw [importWeightsGo]
    by_cases hf : f ∈ pruned
    · rw [if_pos hf]
      have hlen' : ls.length
          = ((Finset.Ico (f + 1) (f + 1 + rest.length)).filter
            (fun i => i ∉ pruned)).card := by
        rw [hsplit, Finset.filter_insert, if_neg (by simpa using hf)] at hlen
        exact hlen
      cases i with
      | zero => exact absurd (by simpa using hf) hfree
      | succ j =>
        show (importWeightsGo pruned (f + 1) ls rest).getD j 0 ≠ 0
        apply ih (f + 1) ls hlen' hnz j (by simpa using hi)
        have : f + 1 + j = f + (j + 1) := by omega
        rw [this]
        exact hfree
    · rw [if_neg hf]
      have hfmem : f ∉ Finset.filter (fun i => i ∉ pruned)
          (Finset.Ico (f + 1) (f + 1 + rest.length)) := by
        intro hmem
        have := Finset.mem_Ico.mp (Finset.mem_of_mem_filter f hmem)
        omega
      have hlen' : ls.length
          = ((Finset.Ico (f + 1) (f + 1 + rest.length)).filter
              (fun i => i ∉ pruned)).card + 1 := by
        rw [hsplit, Finset.filter_insert, if_pos (by simpa using hf),
          Finset.card_insert_of_not_mem hfmem] at hlen
        exact hlen
      obtain ⟨y, ls', rfl⟩ : ∃ y ls', ls = y :: ls' := by
        cases ls with
        | nil => simp at hlen'
        | cons y ls' => exact ⟨y, ls', rfl⟩
      cases i with
      | zero =>
        show (List.headD (y :: ls') 0) ≠ 0
        exact hnz y (List.mem_cons_self y ls')
      | succ j =>
        show (importWeightsGo pruned (f + 1) (y :: ls').tail rest).getD j 0 ≠ 0
        apply ih (f + 1) ls' (by simpa using hlen')
          (fun z hz => hnz z (List.mem_cons_of_mem y hz)) j (by simpa using hi)
        have : f + 1 + j = f + (j + 1) := by omega
        rw [this]
        exact hfree

theorem dispatchPruning_card (method : PruningMethod) (weights : List ℚ)
    (numFeatures numInstances : ℕ) (features : ℕ → ℕ → ℚ)
    (scorer : (ℕ → ℚ) → ℚ) (draws : List ℕ) (k : ℕ)
    (hlen : weights.length = numFeatures) (h1 : 1 ≤ k)
    (hkn : k < numFeatures)
    (hdraws : method = .RANDOM →
      k ≤ ((draws.map (· % numFeatures)).toFinset).card) :
    (dispatchPruning method weights numFeatures numInstances features scorer
      draws k).card = k ∧
    dispatchPruning method weights numFeatures numInstances features scorer
      draws k ⊆ Finset.range numFeatures := by
  cases method with
  | RANDOM =>
    exact random_pruning_card numFeatures k draws (by omega) (hdraws rfl)
  | LOW_WEIGHTS =>
    simp only [dispatchPruning, low_weights_pruning, hlen]
    exact take_sortIdx_card numFeatures k _ (le_of_lt hkn)
  | SKIP => exact skip_pruning_spec numFeatures k h1 hkn
  | LAST => exact last_pruning_spec numFeatures k hkn
  | QUALITY_LOSS =>
    simp only [dispatchPruning, quality_loss_pruning]
    exact take_sortIdx_card numFeatures k _ (le_of_lt hkn)
  | SCORE_LOSS =>
    simp only [dispatchPruning, score_loss_pruning]
    exact take_sortIdx_card numFeatures k _ (le_of_lt hkn)

theorem final_weights_iff_noLS (w2 : List ℚ) (pruned : Finset ℕ) (i : ℕ)
    (hi : i < w2.length) (hnz : w2.getD i 0 ≠ 0) :
    ((zeroPruned w2 pruned).getD i 0 = 0 ↔ i ∈ pruned) := by
  rw [zeroPruned_getD w2 pruned i hi]
  by_cases h : i ∈ pruned
  · simp [h]
  · rw [if_neg h]
    simp only [h, iff_false]
    exact hnz

theorem card_Ico_filter_not_mem (n : ℕ) (pruned : Finset ℕ)
    (hsub : pruned ⊆ Finset.range n) :
    ((Finset.Ico 0 (0 + n)).filter (fun i => i ∉ pruned)).card
      = n - pruned.card := by
  rw [show (0 + n) = n by omega, ← Finset.range_eq_Ico,
    Finset.filter_not, Finset.filter_mem_eq_inter,
    Finset.inter_eq_right.mpr hsub, Finset.card_sdiff hsub, Finset.card_range]

theorem final_weights_iff_LS (w2 : List ℚ) (pruned : Finset ℕ)
    (post : List ℚ) (i : ℕ) (hi : i < w2.length)
    (hpostlen : post.length
      = ((Finset.Ico 0 (0 + w2.length)).filter (fun j => j ∉ pruned)).card)
    (hpostnz : ∀ x ∈ post, x ≠ 0) :
    ((import_weights_from_line_search pruned post
        (zeroPruned w2 pruned)).getD i 0 = 0 ↔ i ∈ pruned) := by
  by_cases h : i ∈ pruned
  · rw [import_weights_from_line_search,
      importWeightsGo_pruned_getD pruned _ 0 post i
        (by rw [zeroPruned_length]; exact hi) (by simpa using h),
      zeroPruned_getD w2 pruned i hi]
    simp [h]
  · have hfree := importWeightsGo_free_getD pruned (zeroPruned w2 pruned) 0
      post (by rw [zeroPruned_length]; exact hpostlen) hpostnz i
      (by rw [zeroPruned_length]; exact hi) (by simpa using h)
    rw [import_weights_from_line_search]
    simp only [h, iff_false]
    exact hfree

/-- C5: for an absolute prune count `k` (rate at least 1) strictly below
the number of trees, every selection policy yields exactly `k` distinct
tree indices inside the ensemble, the run ends normally, and after the
run exactly those `k` trees carry weight 0.  The oracles are constrained
as the source requires: the random draw stream eventually supplies `k`
distinct residues (the `while` loop of `random_pruning` spins until it
does), and the external line-search collaborator, where used, returns
weight vectors of the matching length with nonzero entries. -/
theorem C5_prune_cardinality (rate : ℚ) (method : PruningMethod)
    (lineSearch : Option LineSearchOut) (numFeatures numInstances : ℕ)
    (features : ℕ → ℕ → ℚ) (scorer : (ℕ → ℚ) → ℚ) (draws : List ℕ)
    (w0 : List ℚ)
    (habs : ¬ rate < 1)
    (hk1 : 1 ≤ estimatorsToPrune rate numFeatures)
    (hkn : estimatorsToPrune rate numFeatures < numFeatures)
    (hdraws : method = .RANDOM → estimatorsToPrune rate numFeatures
      ≤ ((draws.map (· % numFeatures)).toFinset).card)
    (hlsneed : methodNeedsLineSearch method = true → lineSearch ≠ none)
    (hlspre : ∀ ls, lineSearch = some ls →
      ls.preWeights.length = numFeatures)
    (hlspost : ∀ ls, lineSearch = some ls →
      ls.postWeights.length
          = numFeatures - estimatorsToPrune rate numFeatures ∧
      ∀ x ∈ ls.postWeights, x ≠ 0) :
    (epLearn rate method lineSearch numFeatures numInstances features scorer
      draws w0).outcome = .ok ∧
    (epLearn rate method lineSearch numFeatures numInstances features scorer
      draws w0).pruned.card = estimatorsToPrune rate numFeatures ∧
    (epLearn rate method lineSearch numFeatures numInstances features scorer
      draws w0).pruned ⊆ Finset.range numFeatures ∧
    ∀ i < numFeatures,
      ((epLearn rate method lineSearch numFeatures numInstances features
        scorer draws w0).weights.getD i 0 = 0 ↔
       i ∈ (epLearn rate method lineSearch numFeatures numInstances features
        scorer draws w0).pruned) := by
  have hno : ¬ (¬ rate < 1 ∧
      numFeatures ≤ estimatorsToPrune rate numFeatures) :=
    fun h => absurd h.2 (not_le.mpr hkn)
  cases lineSearch with
  | none =>
    have hneeds : methodNeedsLineSearch method = false := by
      cases hmn : methodNeedsLineSearch method
      · rfl
      · exact absurd rfl (hlsneed hmn)
    have hred : epLearn rate method none numFeatures numInstances features
        scorer draws w0
        = ⟨zeroPruned (List.replicate numFeatures 1)
            (dispatchPruning method (List.replicate numFeatures 1)
              numFeatures numInstances features scorer draws
              (estimatorsToPrune rate numFeatures)),
           dispatchPruning method (List.replicate numFeatures 1) numFeatures
            numInstances features scorer draws
            (estimatorsToPrune rate numFeatures),
           .ok, estimatorsToPrune rate numFeatures⟩ := by
      simp only [epLearn]
      rw [if_neg hno, hneeds]
    rw [hred]
    obtain ⟨hcard, hsub⟩ := dispatchPruning_card method
      (List.replicate numFeatures 1) numFeatures numInstances features
      scorer draws (estimatorsToPrune rate numFeatures) (by simp) hk1 hkn
      hdraws
    refine ⟨rfl, hcard, hsub, ?_⟩
    intro i hi
    apply final_weights_iff_noLS
    · simpa using hi
    · rw [List.getD_eq_getElem?_getD, List.getElem?_replicate, if_pos hi]
      norm_num
  | some ls =>
    have hlen2 : (if methodNeedsLineSearch method = true
        then import_weights_from_line_search ∅ ls.preWeights
          (List.replicate numFeatures 1)
        else List.replicate numFeatures 1).length = numFeatures := by
      by_cases hmn : methodNeedsLineSearch method = true
      · rw [if_pos hmn, import_weights_from_line_search,
          importWeightsGo_length]
        simp
      · rw [if_neg hmn]; simp
    have hred : epLearn rate method (some ls) numFeatures numInstances
        features scorer draws w0
        = ⟨import_weights_from_line_search
            (dispatchPruning method
              (if methodNeedsLineSearch method = true
               then import_weights_from_line_search ∅ ls.preWeights
                 (List.replicate numFeatures 1)
               else List.replicate numFeatures 1)
              numFeatures numInstances features scorer draws
              (estimatorsToPrune rate numFeatures))
            ls.postWeights
            (zeroPruned
              (if methodNeedsLineSearch method = true
               then import_weights_from_line_search ∅ ls.preWeights
                 (List.replicate numFeatures 1)
               else List.replicate numFeatures 1)
              (dispatchPruning method
                (if methodNeedsLineSearch method = true
                 then import_weights_from_line_search ∅ ls.preWeights
                   (List.replicate numFeatures 1)
                 else List.replicate numFeatures 1)
                numFeatures numInstances features scorer draws
                (estimatorsToPrune rate numFeatures))),
           dispatchPruning method
            (if methodNeedsLineSearch method = true
             then import_weights_from_line_search ∅ ls.preWeights
               (List.replicate numFeatures 1)
             else List.replicate numFeatures 1)
            numFeatures numInstances features scorer draws
            (estimatorsToPrune rate numFeatures),
           .ok, estimatorsToPrune rate numFeatures⟩ := by
      simp only [epLearn]
      rw [if_neg hno]
    rw [hred]
    obtain ⟨hcard, hsub⟩ := dispatchPruning_card method _ numFeatures
      numInstances features scorer draws
      (estimatorsToPrune rate numFeatures) hlen2 hk1 hkn hdraws
    obtain ⟨hpostlen, hpostnz⟩ := hlspost ls rfl
    refine ⟨rfl, hcard, hsub, ?_⟩
    intro i hi
    apply final_weights_iff_LS
    · rw [hlen2]; exact hi
    · rw [hlen2, card_Ico_filter_not_mem numFeatures _ hsub, hcard]
      exact hpostlen
    · exact hpostnz

theorem C5_witness :
    ¬ (2 : ℚ) < 1 ∧ 1 ≤ estimatorsToPrune 2 4 ∧ estimatorsToPrune 2 4 < 4 ∧
    (epLearn 2 .LAST none 4 1 (fun _ _ => 0) (fun _ => 0) []
      []).pruned.card = estimatorsToPrune 2 4 := by
  have he : estimatorsToPrune 2 4 = 2 := by
    norm_num [estimatorsToPrune]
    decide
  refine ⟨by norm_num, by rw [he]; decide, by rw [he]; decide, ?_⟩
  exact (C5_prune_cardinality 2 .LAST none 4 1 (fun _ _ => 0) (fun _ => 0)
    [] [] (by norm_num) (by rw [he]; decide) (by rw [he]; decide)
    (fun h => absurd h (by decide)) (fun h => absurd h (by decide))
    (fun ls h => nomatch h) (fun ls h => nomatch h)).2.1

theorem dartIteration_keep_drop (cfg : DartCfg) (s : DartState)
    (o : DartOracle) :
    (dartIteration cfg s o).1.keep_drop = s.keep_drop := rfl

theorem dartIteration_keptDrop (cfg : DartCfg) (s : DartState)
    (o : DartOracle) (h : s.keep_drop = false) :
    (dartIteration cfg s o).2.keptDrop = false := by
  show (s.keep_drop && _) = false
  rw [h, Bool.false_and]

theorem dartRun_keptDrop (cfg : DartCfg) (oracles : ℕ → DartOracle) :
    ∀ fuel s, s.keep_drop = false →
      ∀ r ∈ (dartRun cfg oracles fuel s).2, r.keptDrop = false := by
  intro fuel
  induction fuel with
  | zero => intro s h r hr; simp [dartRun] at hr
  | succ fuel ih =>
    intro s h r hr
    rw [dartRun] at hr
    by_cases h1 : s.ensemble.length < cfg.ntrees
    · rw [if_pos h1] at hr
      by_cases h2 : cfg.hasValidation = true ∧ 0 < cfg.valid_iterations ∧
          s.bestIter + cfg.valid_iterations < s.m
      · rw [if_pos h2] at hr
        simp at hr
      · rw [if_neg h2] at hr
        simp only at hr
        rcases List.mem_cons.mp hr with h3 | h3
        · subst h3
          exact dartIteration_keptDrop cfg s (oracles s.m) h
        · exact ih _ (by rw [dartIteration_keep_drop]; exact h) r h3
    · rw [if_neg h1] at hr
      simp at hr

/-- C10: for a counting sampling type, `Dart::learn` forces
`keep_drop = false` during initialization, so whatever `keep_drop` the
caller configured, the keep-the-drop branch is never taken at any
iteration of the run. -/
theorem C10_counting_forces_keep_drop_false (cfg : DartCfg) (ens0 : Ensemble)
    (oracles : ℕ → DartOracle) (fuel : ℕ)
    (hc : isCountType cfg.sample_type = true) :
    (dartInit cfg ens0).keep_drop = false ∧
    ∀ r ∈ (dartRun cfg oracles fuel (dartInit cfg ens0)).2,
      r.keptDrop = false := by
  have hinit : (dartInit cfg ens0).keep_drop = false := by
    simp [dartInit, hc]
  exact ⟨hinit, dartRun_keptDrop cfg oracles fuel _ hinit⟩

theorem C10_witness :
    isCountType SamplingType.COUNT2 = true ∧
    ((dartInit
        ⟨5, 1, 0, .COUNT2, .NONE, 0, 0, true, false,
         fun sc => sc 0, fun sc => sc 0⟩ []).keep_drop = false ∧
      ∀ r ∈ (dartRun
          ⟨5, 1, 0, .COUNT2, .NONE, 0, 0, true, false,
           fun sc => sc 0, fun sc => sc 0⟩
          (fun _ => ⟨0, [0], [], ⟨fun _ => 1, fun _ => 1⟩⟩) 2
          (dartInit
            ⟨5, 1, 0, .COUNT2, .NONE, 0, 0, true, false,
             fun sc => sc 0, fun sc => sc 0⟩ [])).2,
        r.keptDrop = false) := by
  refine ⟨by decide, ?_⟩
  exact C10_counting_forces_keep_drop_false
    ⟨5, 1, 0, .COUNT2, .NONE, 0, 0, true, false,
     fun sc => sc 0, fun sc => sc 0⟩ []
    (fun _ => ⟨0, [0], [], ⟨fun _ => 1, fun _ => 1⟩⟩) 2 (by decide)

theorem getWeight_append_last (ens : Ensemble) (t : DTree) (w : ℚ) :
    getWeight (ens ++ [(t, w)]) ens.length = w := by
  rw [getWeight, List.getD_eq_getElem?_getD, List.getElem?_concat_length]
  rfl

theorem getTree_append_last (ens : Ensemble) (t : DTree) (w : ℚ) :
    getTree (ens ++ [(t, w)]) ens.length = t := by
  rw [getTree, List.getD_eq_getElem?_getD, List.getElem?_concat_length]
  rfl

theorem update_modelscores_single (ens : Ensemble) (view : DTree → ℕ → ℚ)
    (add : Bool) (scores : ℕ → ℚ) (t : ℕ) :
    update_modelscores ens view add scores [t]
      = fun i => scores i + (if add then 1 else -1) * getWeight ens t *
          view (getTree ens t) i := by
  rw [update_modelscores_closed]
  funext i
  simp only [List.map_cons, List.map_nil, List.sum_cons, List.sum_nil]
  ring

theorem ensembleScoreTrain_append (ens : Ensemble) (t : DTree) (w : ℚ) :
    ensembleScoreTrain (ens ++ [(t, w)])
      = fun i => ensembleScoreTrain ens i + w * t.onTrain i := by
  funext i
  simp [ensembleScoreTrain]

theorem ensembleScoreVal_append (ens : Ensemble) (t : DTree) (w : ℚ) :
    ensembleScoreVal (ens ++ [(t, w)])
      = fun i => ensembleScoreVal ens i + w * t.onVal i := by
  funext i
  simp [ensembleScoreVal]

theorem ensembleScoreTrain_filter (ens : Ensemble) :
    ensembleScoreTrain (filter_out_zero_weighted_trees ens)
      = ensembleScoreTrain ens := by
  funext i
  simp only [ensembleScoreTrain, filter_out_zero_weighted_trees]
  induction ens with
  | nil => rfl
  | cons p rest ih =>
    by_cases hp : p.2 = 0
    · rw [List.filter_cons, if_neg (by simp [hp]), ih]
      simp [hp]
    · rw [List.filter_cons, if_pos (by simp [hp])]
      simp only [List.map_cons, List.sum_cons, ih]

theorem ensembleScoreVal_filter (ens : Ensemble) :
    ensembleScoreVal (filter_out_zero_weighted_trees ens)
      = ensembleScoreVal ens := by
  funext i
  simp only [ensembleScoreVal, filter_out_zero_weighted_trees]
  induction ens with
  | nil => rfl
  | cons p rest ih =>
    by_cases hp : p.2 = 0
    · rw [List.filter_cons, if_neg (by simp [hp]), ih]
      simp [hp]
    · rw [List.filter_cons, if_pos (by simp [hp])]
      simp only [List.map_cons, List.sum_cons, ih]

theorem update_modelscores_sub_add (ens : Ensemble) (view : DTree → ℕ → ℚ)
    (scores : ℕ → ℚ) (S : List ℕ) :
    update_modelscores ens view true
      (update_modelscores ens view false scores S) S = scores := by
  rw [update_modelscores_closed, update_modelscores_closed]
  funext i
  norm_num

theorem dartCountBlock_not_fit (cfg : DartCfg) (k : ℕ) (b : BranchOut)
    (c : List ℤ) : dartCountBlock cfg k false b c = (b, c, []) := by
  simp [dartCountBlock]

theorem dartIteration_stages (cfg : DartCfg) (s : DartState)
    (o : DartOracle) :
    dartIteration cfg s o =
      (dartBestBlock cfg s (itCB cfg s o).1 (itCB cfg s o).2.1,
       ⟨itTD cfg s o, itDropped cfg s o, itTreeWeight cfg s o,
        itDropoutBetter cfg s o, itFit cfg s o, itKept cfg s o,
        dartBestImproved cfg s (itCB cfg s o).1, (itCB cfg s o).2.2,
        (itCB cfg s o).2.1, get_weights (itCB cfg s o).1.ensemble,
        (itBranch cfg s o).ow⟩) := rfl

theorem itBranch_restore (cfg : DartCfg) (s : DartState) (o : DartOracle)
    (hkd : s.keep_drop = false) :
    itBranch cfg s o =
      dartRestoreBranch cfg (itTD cfg s o) s.droppedBeforeCleaning
        (itScoresTrain2 cfg s o) (itScoresVal2 cfg s o)
        (get_weights s.ensemble) (itEnsemble2 cfg s o) (itDropped cfg s o)
        (itTreeWeight cfg s o) (itLastIdx cfg s o) s.metricVal := by
  simp only [itBranch, itKept, hkd, Bool.false_and, Bool.false_eq_true,
    if_false, ite_false]

theorem dartRestoreBranch_dropped_trees (cfg : DartCfg)
    (trees_to_dropout dbc : ℕ) (sc2 sv2 : ℕ → ℚ) (ow : List ℚ)
    (ens2 : Ensemble) (dl : List ℕ) (tw : ℚ) (li : ℕ) (mv : ℚ) :
    (dartRestoreBranch cfg trees_to_dropout dbc sc2 sv2 ow ens2 dl tw li
      mv).dropped_trees = dl ++ [li] := rfl

theorem dartRestoreBranch_ow (cfg : DartCfg) (trees_to_dropout dbc : ℕ)
    (sc2 sv2 : ℕ → ℚ) (ow : List ℚ) (ens2 : Ensemble) (dl : List ℕ)
    (tw : ℚ) (li : ℕ) (mv : ℚ) :
    (dartRestoreBranch cfg trees_to_dropout dbc sc2 sv2 ow ens2 dl tw li
      mv).ow =
      (if 0 < trees_to_dropout then
        normalize_trees_restore_drop cfg.normalize_type cfg.shrinkage ow dl
          tw
      else ow) := rfl

theorem dartRestoreBranch_ensemble (cfg : DartCfg)
    (trees_to_dropout dbc : ℕ) (sc2 sv2 : ℕ → ℚ) (ow : List ℚ)
    (ens2 : Ensemble) (dl : List ℕ) (tw : ℚ) (li : ℕ) (mv : ℚ) :
    (dartRestoreBranch cfg trees_to_dropout dbc sc2 sv2 ow ens2 dl tw li
      mv).ensemble =
      (if 0 < trees_to_dropout then
        update_ensemble_weights ens2
          (dartRestoreBranch cfg trees_to_dropout dbc sc2 sv2 ow ens2 dl
            tw li mv).ow
      else ens2) := by
  simp only [dartRestoreBranch]

theorem get_weights_length (ens : Ensemble) :
    (get_weights ens).length = ens.length := by
  simp [get_weights]

theorem get_weights_append (a b : Ensemble) :
    get_weights (a ++ b) = get_weights a ++ get_weights b := by
  simp [get_weights]

theorem get_weights_update_ensemble (ens : Ensemble) (w : List ℚ) :
    get_weights (update_ensemble_weights ens w) = w.take ens.length := by
  induction ens generalizing w with
  | nil => simp [get_weights, update_ensemble_weights]
  | cons p rest ih =>
    cases w with
    | nil => simp [get_weights, update_ensemble_weights]
    | cons x xs => simpa [get_weights, update_ensemble_weights] using ih xs

theorem update_ensemble_length (ens : Ensemble) (w : List ℚ) :
    (update_ensemble_weights ens w).length = min ens.length w.length := by
  simp [update_ensemble_weights]

theorem getD_take_lt (l : List ℚ) (n t : ℕ) (h : t < n) :
    (l.take n).getD t 0 = l.getD t 0 := by
  rw [List.getD_eq_getElem?_getD, List.getD_eq_getElem?_getD,
    List.getElem?_take_of_lt h]

theorem getD_pos_lt_length (w : List ℚ) (t : ℕ) (h : 0 < w.getD t 0) :
    t < w.length := by
  by_contra hn
  rw [List.getD_eq_default _ _ (le_of_not_lt hn)] at h
  exact lt_irrefl 0 h

theorem getD_set_zero (w : List ℚ) (i t : ℕ) (h : w.getD t 0 = 0) :
    (w.set i 0).getD t 0 = 0 := by
  rw [List.getD_eq_getElem?_getD, List.getElem?_set]
  split_ifs with h1 h2
  · rfl
  · rfl
  · rw [← List.getD_eq_getElem?_getD]
    exact h

theorem scaleAt_getD_zero (w : List ℚ) (i t : ℕ) (c : ℚ)
    (h : w.getD t 0 = 0) : (scaleAt w i c).getD t 0 = 0 := by
  simp only [scaleAt]
  rw [List.getD_eq_getElem?_getD, List.getElem?_set]
  split_ifs with h1 h2
  · subst h1
    show w.getD i 0 * c = 0
    rw [h, zero_mul]
  · rfl
  · rw [← List.getD_eq_getElem?_getD]
    exact h

theorem scaleAt_length (w : List ℚ) (i : ℕ) (c : ℚ) :
    (scaleAt w i c).length = w.length := by
  simp [scaleAt]

theorem foldl_set_zero_length (l : List ℕ) (w : List ℚ) :
    (l.foldl (fun w t => w.set t 0) w).length = w.length := by
  induction l generalizing w with
  | nil => rfl
  | cons a rest ih => rw [List.foldl_cons, ih, List.length_set]

theorem foldl_set_zero_getD_zero (l : List ℕ) (w : List ℚ) (t : ℕ)
    (h : w.getD t 0 = 0) :
    (l.foldl (fun w t => w.set t 0) w).getD t 0 = 0 := by
  induction l generalizing w with
  | nil => exact h
  | cons a rest ih => exact ih _ (getD_set_zero w a t h)

theorem foldl_set_zero_getD_mem (l : List ℕ) (w : List ℚ) (t : ℕ)
    (ht : t ∈ l) (hlt : t < w.length) :
    (l.foldl (fun w t => w.set t 0) w).getD t 0 = 0 := by
  induction l generalizing w with
  | nil => cases ht
  | cons a rest ih =>
    rw [List.foldl_cons]
    rcases List.mem_cons.mp ht with rfl | hmem
    · exact foldl_set_zero_getD_zero rest _ t
        (by rw [List.getD_eq_getElem?_getD, List.getElem?_set_self hlt]; rfl)
    · exact ih _ hmem (by rw [List.length_set]; exact hlt)

theorem foldl_scaleAt_length (l : List ℕ) (w : List ℚ) (c : ℚ) :
    (l.foldl (fun w i => scaleAt w i c) w).length = w.length := by
  induction l generalizing w with
  | nil => rfl
  | cons a rest ih => rw [List.foldl_cons, ih, scaleAt_length]

theorem foldl_scaleAt_getD_zero (l : List ℕ) (w : List ℚ) (c : ℚ) (t : ℕ)
    (h : w.getD t 0 = 0) :
    (l.foldl (fun w i => scaleAt w i c) w).getD t 0 = 0 := by
  induction l generalizing w with
  | nil => exact h
  | cons a rest ih => exact ih _ (scaleAt_getD_zero w a t c h)

theorem normalize_length (nt : NormalizationType) (sh : ℚ) (w : List ℚ)
    (dl : List ℕ) (tw : ℚ) :
    (normalize_trees_restore_drop nt sh w dl tw).length = w.length + 1 := by
  cases nt <;>
    simp [normalize_trees_restore_drop, foldl_scaleAt_length]

theorem normalize_getD_zero (nt : NormalizationType) (sh : ℚ) (w : List ℚ)
    (dl : List ℕ) (tw : ℚ) (t : ℕ) (hlt : t < w.length)
    (h : w.getD t 0 = 0) :
    (normalize_trees_restore_drop nt sh w dl tw).getD t 0 = 0 := by
  have happ : ∀ x : ℚ, (w ++ [x]).getD t 0 = 0 := fun x => by
    rw [List.getD_append _ _ _ _ hlt]; exact h
  cases nt <;>
    simp only [normalize_trees_restore_drop] <;>
    first
      | exact foldl_scaleAt_getD_zero _ _ _ _ (happ _)
      | exact happ _

theorem countLoop_acc_mem (thr : ℤ) (ow : List ℚ) :
    ∀ (l : List ℕ) (c : List ℤ) (a : List ℕ) (x : ℕ),
      x ∈ (countLoop thr ow l c a).2 → x ∈ a ∨ 0 < ow.getD x 0 := by
  intro l
  induction l with
  | nil =>
    intro c a x hx
    exact Or.inl hx
  | cons t rest ih =>
    intro c a x hx
    simp only [countLoop] at hx
    rcases ih _ _ x hx with h | h
    · by_cases hcond : thr ≤ (c.set t (c.getD t 0 + 1)).getD t 0 ∧
        0 < ow.getD t 0
      · rw [if_pos hcond] at h
        rcases List.mem_append.mp h with h2 | h2
        · exact Or.inl h2
        · rw [List.mem_singleton.mp h2]
          exact Or.inr hcond.2
      · rw [if_neg hcond] at h
        exact Or.inl h
    · exact Or.inr h

theorem dartCountBlock_fit_counts (cfg : DartCfg) (td : ℕ) (b : BranchOut)
    (c : List ℤ) (hc : isCountType cfg.sample_type = true) :
    (dartCountBlock cfg td true b c).2 =
      countLoop
        (if cfg.sample_type = .COUNT3 ∨ cfg.sample_type = .COUNT3N then 3
         else 2) b.ow b.dropped_trees.dropLast c [] := by
  simp only [dartCountBlock, hc, Bool.true_and, if_true]
  split_ifs <;> rfl

theorem dartCountBlock_weights_zero (cfg : DartCfg) (td : ℕ) (fit : Bool)
    (b : BranchOut) (c : List ℤ) (t : ℕ)
    (hz : (get_weights b.ensemble).getD t 0 = 0)
    (how : b.ow.getD t 0 = 0) :
    (get_weights (dartCountBlock cfg td fit b c).1.ensemble).getD t 0
      = 0 := by
  have hupd : ∀ w : List ℚ, w.getD t 0 = 0 →
      (get_weights (update_ensemble_weights b.ensemble w)).getD t 0 = 0 := by
    intro w hw
    rw [get_weights_update_ensemble]
    by_cases hlt : t < b.ensemble.length
    · rw [getD_take_lt _ _ _ hlt]
      exact hw
    · exact List.getD_eq_default _ _
        (le_trans (by rw [List.length_take]; exact min_le_left _ _)
          (le_of_not_lt hlt))
  simp only [dartCountBlock]
  generalize (if cfg.sample_type = SamplingType.COUNT3 ∨
    cfg.sample_type = SamplingType.COUNT3N then (3 : ℤ) else 2) = thr
  split_ifs <;>
    first
      | exact hz
      | exact hupd _ (foldl_set_zero_getD_zero _ _ _ how)
      | exact hupd _ (foldl_set_zero_getD_zero _ _ _
          (foldl_scaleAt_getD_zero _ _ _ _ (scaleAt_getD_zero _ _ _ _ how)))

theorem dartCountBlock_fit_ttdbc_zero (cfg : DartCfg) (td : ℕ)
    (b : BranchOut) (c : List ℤ)
    (hc : isCountType cfg.sample_type = true)
    (hlen : b.ow.length ≤ b.ensemble.length) :
    ∀ t ∈ (dartCountBlock cfg td true b c).2.2,
      (get_weights (dartCountBlock cfg td true b c).1.ensemble).getD t 0
        = 0 := by
  intro t ht
  have hmem : t ∈ (countLoop
      (if cfg.sample_type = .COUNT3 ∨ cfg.sample_type = .COUNT3N then 3
       else 2) b.ow b.dropped_trees.dropLast c []).2 := by
    rw [← dartCountBlock_fit_counts cfg td b c hc]
    exact ht
  have hpos : 0 < b.ow.getD t 0 := by
    rcases countLoop_acc_mem _ _ _ _ _ _ hmem with h | h
    · cases h
    · exact h
  have htlt : t < b.ow.length := getD_pos_lt_length _ _ hpos
  have hupd : ∀ w : List ℚ, w.getD t 0 = 0 →
      (get_weights (update_ensemble_weights b.ensemble w)).getD t 0 = 0 := by
    intro w hw
    rw [get_weights_update_ensemble,
      getD_take_lt _ _ _ (lt_of_lt_of_le htlt hlen)]
    exact hw
  simp only [dartCountBlock, hc, Bool.true_and, if_true]
  generalize hthr : (if cfg.sample_type = SamplingType.COUNT3 ∨
    cfg.sample_type = SamplingType.COUNT3N then (3 : ℤ) else 2) = thr
    at hmem ⊢
  have hne : (countLoop thr b.ow b.dropped_trees.dropLast c []).2 ≠ [] :=
    fun hE => by rw [hE] at hmem; cases hmem
  rw [if_pos hne]
  split_ifs <;>
    first
      | exact hupd _ (foldl_set_zero_getD_mem _ _ _ hmem htlt)
      | exact hupd _ (foldl_set_zero_getD_mem _ _ _ hmem
          (by rw [foldl_scaleAt_length, scaleAt_length]; exact htlt))

theorem dartIteration_counts_not_fit (cfg : DartCfg) (s : DartState)
    (o : DartOracle)
    (hfit : (dartIteration cfg s o).2.fitBetter = false) :
    (dartIteration cfg s o).2.countsBeforeFilter = s.counts ++ [0] ∧
    (dartIteration cfg s o).2.trees_to_drop_by_count = [] := by
  rw [dartIteration_stages] at hfit ⊢
  have hfit' : itFit cfg s o = false := hfit
  constructor
  · show (itCB cfg s o).2.1 = s.counts ++ [(0 : ℤ)]
    simp only [itCB]
    rw [hfit', dartCountBlock_not_fit]
  · show (itCB cfg s o).2.2 = []
    simp only [itCB]
    rw [hfit', dartCountBlock_not_fit]

theorem dartRun_succ (cfg : DartCfg) (oracles : ℕ → DartOracle) (fuel : ℕ)
    (s : DartState) (hcap : s.ensemble.length < cfg.ntrees)
    (hbrk : ¬ (cfg.hasValidation = true ∧ 0 < cfg.valid_iterations ∧
      s.bestIter + cfg.valid_iterations < s.m)) :
    dartRun cfg oracles (fuel + 1) s =
      ((dartRun cfg oracles fuel (dartIteration cfg s (oracles s.m)).1).1,
       (dartIteration cfg s (oracles s.m)).2 ::
         (dartRun cfg oracles fuel
           (dartIteration cfg s (oracles s.m)).1).2) := by
  rw [dartRun, if_pos hcap, if_neg hbrk]

theorem dartBestBlock_metricTrain (cfg : DartCfg) (s : DartState)
    (b2 : BranchOut) (c3 : List ℤ) :
    (dartBestBlock cfg s b2 c3).metricTrain = b2.metricTrain := rfl

theorem dartBestBlock_metricVal (cfg : DartCfg) (s : DartState)
    (b2 : BranchOut) (c3 : List ℤ) :
    (dartBestBlock cfg s b2 c3).metricVal = b2.metricVal := rfl

theorem dartBestBlock_ensemble (cfg : DartCfg) (s : DartState)
    (b2 : BranchOut) (c3 : List ℤ) :
    (dartBestBlock cfg s b2 c3).ensemble
      = if dartBestImproved cfg s b2 then
          filter_out_zero_weighted_trees b2.ensemble
        else b2.ensemble := rfl

theorem dartBestBlock_scoresTrain (cfg : DartCfg) (s : DartState)
    (b2 : BranchOut) (c3 : List ℤ)
    (hinv : b2.scoresTrain = ensembleScoreTrain b2.ensemble) :
    (dartBestBlock cfg s b2 c3).scoresTrain = b2.scoresTrain := by
  show (if (dartBestImproved cfg s b2 &&
      decide (10 < s.m - s.lastIterationGlobalScoring)) = true then
        ensembleScoreTrain (if dartBestImproved cfg s b2 then
          filter_out_zero_weighted_trees b2.ensemble else b2.ensemble)
      else b2.scoresTrain) = b2.scoresTrain
  by_cases hg : (dartBestImproved cfg s b2 &&
      decide (10 < s.m - s.lastIterationGlobalScoring)) = true
  · rw [if_pos hg, if_pos (Bool.and_eq_true_iff.mp hg).1,
      ensembleScoreTrain_filter, hinv]
  · rw [if_neg hg]

theorem dartBestBlock_scoresVal (cfg : DartCfg) (s : DartState)
    (b2 : BranchOut) (c3 : List ℤ)
    (hinv : cfg.hasValidation = true →
      b2.scoresVal = ensembleScoreVal b2.ensemble) :
    (dartBestBlock cfg s b2 c3).scoresVal = b2.scoresVal := by
  show (if ((dartBestImproved cfg s b2 &&
      decide (10 < s.m - s.lastIterationGlobalScoring)) &&
        cfg.hasValidation) = true then
        ensembleScoreVal (if dartBestImproved cfg s b2 then
          filter_out_zero_weighted_trees b2.ensemble else b2.ensemble)
      else b2.scoresVal) = b2.scoresVal
  by_cases hg : ((dartBestImproved cfg s b2 &&
      decide (10 < s.m - s.lastIterationGlobalScoring)) &&
        cfg.hasValidation) = true
  · obtain ⟨hg1, hval⟩ := Bool.and_eq_true_iff.mp hg
    rw [if_pos hg, if_pos (Bool.and_eq_true_iff.mp hg1).1,
      ensembleScoreVal_filter, hinv hval]
  · rw [if_neg hg]

theorem dartIteration_no_dropout (cfg : DartCfg) (s : DartState)
    (o : DartOracle)
    (htd : dartTreesToDropout cfg s.ensemble.length
      (get_weights s.ensemble).length o.probSkipDropout = 0) :
    dartIteration cfg s o =
      (let w := get_weight_last_tree cfg.normalize_type cfg.shrinkage 0
        cfg.scorerTrain s.scoresTrain o.newTree
      let ens2 := s.ensemble ++ [(o.newTree, w)]
      let li := ens2.length - 1
      let sc2 := update_modelscores ens2 DTree.onTrain true s.scoresTrain [li]
      let sv2 := if cfg.hasValidation then
          update_modelscores ens2 DTree.onVal true s.scoresVal [li]
        else s.scoresVal
      let b := dartRestoreBranch cfg 0 s.droppedBeforeCleaning sc2 sv2
        (get_weights s.ensemble) ens2 [] w li s.metricVal
      (dartBestBlock cfg s b (s.counts ++ [0]),
       ⟨0, [], w, false, false, false, dartBestImproved cfg s b, [],
        s.counts ++ [0], get_weights b.ensemble, b.ow⟩)) := by
  simp only [dartIteration, htd, if_false, lt_self_iff_false, false_and,
    Bool.and_false, Bool.false_eq_true, List.length_nil,
    dartCountBlock_not_fit, ite_false]

theorem dartRestoreBranch_no_dropout (cfg : DartCfg) (dbc : ℕ)
    (sc2 sv2 : ℕ → ℚ) (ow : List ℚ) (ens2 : Ensemble) (tw : ℚ) (li : ℕ)
    (mv : ℚ) :
    dartRestoreBranch cfg 0 dbc sc2 sv2 ow ens2 [] tw li mv =
      (let sc3 := update_modelscores ens2 DTree.onTrain false sc2 [li]
      let sv3 := if cfg.hasValidation then
          update_modelscores ens2 DTree.onVal false sv2 [li]
        else sv2
      let sc4 := update_modelscores ens2 DTree.onTrain true sc3 [li]
      let sv4 := if cfg.hasValidation then
          update_modelscores ens2 DTree.onVal true sv3 [li]
        else sv3
      ⟨sc4, sv4, ow, ens2, [li], cfg.scorerTrain sc4,
       (if cfg.hasValidation then cfg.scorerVal sv4 else mv), dbc⟩) := by
  simp only [dartRestoreBranch, lt_self_iff_false, if_false,
    List.nil_append, ite_false]

/-- C1 (amended): with `skip_drop = 1.0` the dropout draw can never
exceed the threshold, so no iteration of `Dart::learn` drops any tree,
and each iteration reduces to one standard gradient-boosting step: the
fitted tree is appended with the weight computed by
`get_weight_last_tree` for zero dropped trees - equal to the shrinkage
under the TREE, NONE, WEIGHTED and FOREST normalizations (under
TREE_ADAPTIVE and TREE_BOOST3 it is 1, under LINESEARCH the line-search
optimum) - and the cached scores and metric values after the iteration
are exactly those of standard boosting with that weight. -/
theorem C1_skip_drop_one_reduces_to_boosting (cfg : DartCfg) (s : DartState)
    (o : DartOracle) (w : ℚ) (hskip : cfg.skip_drop = 1)
    (hprob : o.probSkipDropout ≤ 1)
    (hw : w = get_weight_last_tree cfg.normalize_type cfg.shrinkage 0
      cfg.scorerTrain s.scoresTrain o.newTree)
    (hinvT : s.scoresTrain = ensembleScoreTrain s.ensemble)
    (hinvV : cfg.hasValidation = true →
      s.scoresVal = ensembleScoreVal s.ensemble) :
    (dartIteration cfg s o).2.trees_to_dropout = 0 ∧
    (dartIteration cfg s o).2.dropped_trees = [] ∧
    (dartIteration cfg s o).2.appendedWeight = w ∧
    ((cfg.normalize_type = .TREE ∨ cfg.normalize_type = .NONE ∨
      cfg.normalize_type = .WEIGHTED ∨ cfg.normalize_type = .FOREST) →
      w = cfg.shrinkage) ∧
    (dartIteration cfg s o).1.scoresTrain
      = specBoostingStep s.scoresTrain o.newTree.onTrain w ∧
    (dartIteration cfg s o).1.metricTrain
      = cfg.scorerTrain (specBoostingStep s.scoresTrain o.newTree.onTrain w) ∧
    (dartIteration cfg s o).1.scoresTrain
      = ensembleScoreTrain (dartIteration cfg s o).1.ensemble ∧
    (dartIteration cfg s o).1.ensemble
      = (if (dartIteration cfg s o).2.bestImproved = true then
          filter_out_zero_weighted_trees (s.ensemble ++ [(o.newTree, w)])
        else s.ensemble ++ [(o.newTree, w)]) ∧
    (cfg.hasValidation = true →
      (dartIteration cfg s o).1.scoresVal
          = specBoostingStep s.scoresVal o.newTree.onVal w ∧
      (dartIteration cfg s o).1.metricVal
          = cfg.scorerVal (specBoostingStep s.scoresVal o.newTree.onVal w)) := by
  have hnd : ¬ cfg.skip_drop < o.probSkipDropout := by
    rw [hskip]; exact not_lt.mpr hprob
  have htd : dartTreesToDropout cfg s.ensemble.length
      (get_weights s.ensemble).length o.probSkipDropout = 0 := by
    simp [dartTreesToDropout, hnd]
  have hit := dartIteration_no_dropout cfg s o htd
  simp only [] at hit
  rw [← hw] at hit
  have hli : (s.ensemble ++ [(o.newTree, w)]).length - 1 = s.ensemble.length := by
    simp
  rw [hli] at hit
  have hsc2 : update_modelscores (s.ensemble ++ [(o.newTree, w)])
      DTree.onTrain true s.scoresTrain [s.ensemble.length]
      = specBoostingStep s.scoresTrain o.newTree.onTrain w := by
    rw [update_modelscores_single]
    funext i
    rw [getWeight_append_last, getTree_append_last]
    simp only [specBoostingStep, if_true, ite_true]
    ring
  have hsv2 : update_modelscores (s.ensemble ++ [(o.newTree, w)])
      DTree.onVal true s.scoresVal [s.ensemble.length]
      = specBoostingStep s.scoresVal o.newTree.onVal w := by
    rw [update_modelscores_single]
    funext i
    rw [getWeight_append_last, getTree_append_last]
    simp only [specBoostingStep, if_true, ite_true]
    ring
  rw [dartRestoreBranch_no_dropout] at hit
  simp only [] at hit
  rw [hsc2, update_modelscores_sub_add] at hit
  have hensInv : specBoostingStep s.scoresTrain o.newTree.onTrain w
      = ensembleScoreTrain (s.ensemble ++ [(o.newTree, w)]) := by
    rw [ensembleScoreTrain_append, ← hinvT]
    rfl
  by_cases hval : cfg.hasValidation = true
  · rw [hval] at hit
    simp only [if_true, ite_true] at hit
    rw [hsv2, update_modelscores_sub_add] at hit
    rw [hit]
    have hensInvV : specBoostingStep s.scoresVal o.newTree.onVal w
        = ensembleScoreVal (s.ensemble ++ [(o.newTree, w)]) := by
      rw [ensembleScoreVal_append, ← hinvV hval]
      rfl
    refine ⟨rfl, rfl, rfl, ?_, ?_, ?_, ?_, rfl, ?_⟩
    · intro hn
      rw [hw]
      rcases hn with h | h | h | h <;> rw [h] <;> rfl
    · rw [dartBestBlock_scoresTrain]
      exact hensInv
    · exact dartBestBlock_metricTrain _ _ _ _
    · rw [dartBestBlock_scoresTrain, dartBestBlock_ensemble]
      · split_ifs with hbi
        · rw [ensembleScoreTrain_filter]
          exact hensInv
        · exact hensInv
      · exact hensInv
    · intro _
      refine ⟨?_, ?_⟩
      · rw [dartBestBlock_scoresVal]
        intro _
        exact hensInvV
      · exact dartBestBlock_metricVal _ _ _ _
  · have hvf : cfg.hasValidation = false := by
      cases h : cfg.hasValidation
      · rfl
      · exact absurd h hval
    rw [hvf] at hit
    simp only [Bool.false_eq_true, if_false, ite_false] at hit
    rw [hit]
    refine ⟨rfl, rfl, rfl, ?_, ?_, ?_, ?_, rfl, ?_⟩
    · intro hn
      rw [hw]
      rcases hn with h | h | h | h <;> rw [h] <;> rfl
    · rw [dartBestBlock_scoresTrain]
      exact hensInv
    · exact dartBestBlock_metricTrain _ _ _ _
    · rw [dartBestBlock_scoresTrain, dartBestBlock_ensemble]
      · split_ifs with hbi
        · rw [ensembleScoreTrain_filter]
          exact hensInv
        · exact hensInv
      · exact hensInv
    · intro hv
      exact absurd hv hval

/-- C1 counterexample: a configuration with `skip_drop = 1` and
TREE_ADAPTIVE normalization performs no dropout in its first iteration,
yet the new tree is appended with weight 1 - not the shrinkage 1/2 - so
the iteration is not standard boosting with the same shrinkage. -/
theorem C1_cex_adaptive_weight_not_shrinkage :
    (dartIteration
        ⟨5, 1/2, 0, .UNIFORM, .TREE_ADAPTIVE, 0, 1, false, false,
         fun sc => sc 0, fun sc => sc 0⟩
        (dartInit
          ⟨5, 1/2, 0, .UNIFORM, .TREE_ADAPTIVE, 0, 1, false, false,
           fun sc => sc 0, fun sc => sc 0⟩ [])
        ⟨1/2, [], [], ⟨fun _ => 1, fun _ => 1⟩⟩).2.trees_to_dropout = 0 ∧
    (dartIteration
        ⟨5, 1/2, 0, .UNIFORM, .TREE_ADAPTIVE, 0, 1, false, false,
         fun sc => sc 0, fun sc => sc 0⟩
        (dartInit
          ⟨5, 1/2, 0, .UNIFORM, .TREE_ADAPTIVE, 0, 1, false, false,
           fun sc => sc 0, fun sc => sc 0⟩ [])
        ⟨1/2, [], [], ⟨fun _ => 1, fun _ => 1⟩⟩).2.appendedWeight = 1 ∧
    (1 : ℚ) ≠ 1/2 := by
  have htd : dartTreesToDropout
      (⟨5, 1/2, 0, .UNIFORM, .TREE_ADAPTIVE, 0, 1, false, false,
        fun sc => sc 0, fun sc => sc 0⟩ : DartCfg)
      (dartInit
        ⟨5, 1/2, 0, .UNIFORM, .TREE_ADAPTIVE, 0, 1, false, false,
         fun sc => sc 0, fun sc => sc 0⟩ []).ensemble.length
      (get_weights (dartInit
        ⟨5, 1/2, 0, .UNIFORM, .TREE_ADAPTIVE, 0, 1, false, false,
         fun sc => sc 0, fun sc => sc 0⟩ []).ensemble).length
      (⟨1/2, [], [], ⟨fun _ => 1, fun _ => 1⟩⟩ : DartOracle).probSkipDropout
      = 0 := by
    show dartTreesToDropout _ 0 0 (1/2) = 0
    norm_num [dartTreesToDropout]
  have hit := dartIteration_no_dropout
    ⟨5, 1/2, 0, .UNIFORM, .TREE_ADAPTIVE, 0, 1, false, false,
     fun sc => sc 0, fun sc => sc 0⟩
    (dartInit
      ⟨5, 1/2, 0, .UNIFORM, .TREE_ADAPTIVE, 0, 1, false, false,
       fun sc => sc 0, fun sc => sc 0⟩ [])
    ⟨1/2, [], [], ⟨fun _ => 1, fun _ => 1⟩⟩ htd
  refine ⟨?_, ?_, by norm_num⟩
  · rw [hit]
  · rw [hit]
    show (1/2 : ℚ) / (1/2 + ((0 : ℕ) : ℚ)) = 1
    norm_num

theorem C1_witness :
    (⟨5, 1/10, 0, .UNIFORM, .NONE, 0, 1, false, false,
      fun sc => sc 0, fun sc => sc 0⟩ : DartCfg).skip_drop = 1 ∧
    (1/2 : ℚ) ≤ 1 ∧
    (dartIteration
        ⟨5, 1/10, 0, .UNIFORM, .NONE, 0, 1, false, false,
         fun sc => sc 0, fun sc => sc 0⟩
        (dartInit
          ⟨5, 1/10, 0, .UNIFORM, .NONE, 0, 1, false, false,
           fun sc => sc 0, fun sc => sc 0⟩ [])
        ⟨1/2, [], [], ⟨fun _ => 2, fun _ => 2⟩⟩).2.trees_to_dropout = 0 ∧
    (dartIteration
        ⟨5, 1/10, 0, .UNIFORM, .NONE, 0, 1, false, false,
         fun sc => sc 0, fun sc => sc 0⟩
        (dartInit
          ⟨5, 1/10, 0, .UNIFORM, .NONE, 0, 1, false, false,
           fun sc => sc 0, fun sc => sc 0⟩ [])
        ⟨1/2, [], [], ⟨fun _ => 2, fun _ => 2⟩⟩).2.appendedWeight = 1/10 := by
  have h := C1_skip_drop_one_reduces_to_boosting
    ⟨5, 1/10, 0, .UNIFORM, .NONE, 0, 1, false, false,
     fun sc => sc 0, fun sc => sc 0⟩
    (dartInit
      ⟨5, 1/10, 0, .UNIFORM, .NONE, 0, 1, false, false,
       fun sc => sc 0, fun sc => sc 0⟩ [])
    ⟨1/2, [], [], ⟨fun _ => 2, fun _ => 2⟩⟩
    (1/10) rfl (by norm_num) rfl rfl (fun hv => nomatch hv)
  exact ⟨rfl, by norm_num, h.1, h.2.2.1⟩

/-- C7 (amended): in an iteration of `Dart::learn` with a counting
sampling type (and the `keep_drop = false` that initialization forces for
those types), the consecutive-drop counts are NOT incremented on every
drop: when the fit after dropout does not beat the previous full-model
metric, the counts of the dropped trees are left untouched (only a zero
is appended for the new tree) and no tree is permanently dropped; only
when it does beat it are the dropped trees' counts incremented (via the
count loop, which also collects the trees reaching the threshold - 3 for
COUNT3/COUNT3N, else 2 - while their restored weight is positive).  The
collected trees' weights are 0 in the iteration's resulting weight
vector, and a tree of the incoming ensemble whose weight is already 0
still has weight 0 there, so a permanently dropped tree never regains
weight within the loop (cleanup on best iterations then physically
removes zero-weight trees). -/
theorem C7_counting_drop_semantics (cfg : DartCfg) (s : DartState)
    (o : DartOracle) (hc : isCountType cfg.sample_type = true)
    (hkd : s.keep_drop = false) :
    ((dartIteration cfg s o).2.fitBetter = false →
      (dartIteration cfg s o).2.countsBeforeFilter = s.counts ++ [0] ∧
      (dartIteration cfg s o).2.trees_to_drop_by_count = []) ∧
    ((dartIteration cfg s o).2.fitBetter = true →
      (dartIteration cfg s o).2.countsBeforeFilter =
        (countLoop
          (if cfg.sample_type = SamplingType.COUNT3 ∨
              cfg.sample_type = SamplingType.COUNT3N then 3 else 2)
          (dartIteration cfg s o).2.owRestored
          (dartIteration cfg s o).2.dropped_trees
          (s.counts ++ [0]) []).1 ∧
      (dartIteration cfg s o).2.trees_to_drop_by_count =
        (countLoop
          (if cfg.sample_type = SamplingType.COUNT3 ∨
              cfg.sample_type = SamplingType.COUNT3N then 3 else 2)
          (dartIteration cfg s o).2.owRestored
          (dartIteration cfg s o).2.dropped_trees
          (s.counts ++ [0]) []).2) ∧
    (∀ t ∈ (dartIteration cfg s o).2.trees_to_drop_by_count,
      (dartIteration cfg s o).2.weightsBeforeFilter.getD t 0 = 0) ∧
    (∀ t, t < s.ensemble.length → (get_weights s.ensemble).getD t 0 = 0 →
      (dartIteration cfg s o).2.weightsBeforeFilter.getD t 0 = 0) := by
  have hb := itBranch_restore cfg s o hkd
  refine ⟨dartIteration_counts_not_fit cfg s o, ?_, ?_, ?_⟩
  · intro hfit
    rw [dartIteration_stages] at hfit ⊢
    have hfit' : itFit cfg s o = true := hfit
    constructor
    · show (itCB cfg s o).2.1 =
        (countLoop
          (if cfg.sample_type = SamplingType.COUNT3 ∨
              cfg.sample_type = SamplingType.COUNT3N then 3 else 2)
          (itBranch cfg s o).ow (itDropped cfg s o)
          (s.counts ++ [0]) []).1
      simp only [itCB]
      rw [hfit',
        dartCountBlock_fit_counts cfg (itTD cfg s o) (itBranch cfg s o)
          (s.counts ++ [(0 : ℤ)]) hc,
        hb, dartRestoreBranch_dropped_trees, List.dropLast_concat]
    · show (itCB cfg s o).2.2 =
        (countLoop
          (if cfg.sample_type = SamplingType.COUNT3 ∨
              cfg.sample_type = SamplingType.COUNT3N then 3 else 2)
          (itBranch cfg s o).ow (itDropped cfg s o)
          (s.counts ++ [0]) []).2
      simp only [itCB]
      rw [hfit',
        dartCountBlock_fit_counts cfg (itTD cfg s o) (itBranch cfg s o)
          (s.counts ++ [(0 : ℤ)]) hc,
        hb, dartRestoreBranch_dropped_trees, List.dropLast_concat]
  · intro t ht
    rw [dartIteration_stages] at ht ⊢
    have ht' : t ∈ (itCB cfg s o).2.2 := ht
    show (get_weights (itCB cfg s o).1.ensemble).getD t 0 = 0
    by_cases hfit : itFit cfg s o = true
    · have htd : 0 < itTD cfg s o := by
        by_contra hn
        simp only [itFit] at hfit
        rw [if_neg hn] at hfit
        exact Bool.false_ne_true hfit
      have hw0 : (itDroppedWeights cfg s o).length = s.ensemble.length := by
        simp only [itDroppedWeights]
        rw [if_pos htd, foldl_set_zero_length, get_weights_length]
      have hE1len : (itEnsemble1 cfg s o).length = s.ensemble.length := by
        simp only [itEnsemble1]
        rw [if_pos htd, update_ensemble_length, hw0, min_self]
      have hE2len : (itEnsemble2 cfg s o).length
          = s.ensemble.length + 1 := by
        simp only [itEnsemble2]
        rw [List.length_append, hE1len]
        rfl
      simp only [itCB] at ht' ⊢
      rw [hfit] at ht' ⊢
      rw [hb] at ht' ⊢
      refine dartCountBlock_fit_ttdbc_zero cfg (itTD cfg s o) _ _ hc ?_ t ht'
      rw [dartRestoreBranch_ensemble, dartRestoreBranch_ow, if_pos htd,
        if_pos htd, normalize_length, get_weights_length,
        update_ensemble_length, normalize_length, get_weights_length,
        hE2len, min_self]
    · have hfitF : itFit cfg s o = false := by
        cases hF : itFit cfg s o
        · rfl
        · exact absurd hF hfit
      simp only [itCB] at ht'
      rw [hfitF, dartCountBlock_not_fit] at ht'
      cases ht'
  · intro t htlt hz
    rw [dartIteration_stages]
    show (get_weights (itCB cfg s o).1.ensemble).getD t 0 = 0
    simp only [itCB]
    rw [hb]
    refine dartCountBlock_weights_zero cfg _ _ _ _ t ?_ ?_
    · rw [dartRestoreBranch_ensemble]
      by_cases htd : 0 < itTD cfg s o
      · rw [if_pos htd, get_weights_update_ensemble]
        by_cases hlt2 : t < (itEnsemble2 cfg s o).length
        · rw [getD_take_lt _ _ _ hlt2, dartRestoreBranch_ow, if_pos htd]
          exact normalize_getD_zero _ _ _ _ _ _
            (by rw [get_weights_length]; exact htlt) hz
        · exact List.getD_eq_default _ _
            (le_trans (by rw [List.length_take]; exact min_le_left _ _)
              (le_of_not_lt hlt2))
      · rw [if_neg htd]
        simp only [itEnsemble2, itEnsemble1]
        rw [if_neg htd, get_weights_append,
          List.getD_append _ _ _ _
            (by rw [get_weights_length]; exact htlt)]
        exact hz
    · rw [dartRestoreBranch_ow]
      by_cases htd : 0 < itTD cfg s o
      · rw [if_pos htd]
        exact normalize_getD_zero _ _ _ _ _ _
          (by rw [get_weights_length]; exact htlt) hz
      · rw [if_neg htd]
        exact hz

/-- C7 counterexample: a two-iteration COUNT2 run (5 trees requested,
shrinkage 1, NONE normalization, `rate_drop = 1/2`, `skip_drop = 0`, no
validation set, constant-zero metric).  The first iteration draws 0 (no
dropout possible on an empty ensemble anyway) and appends a tree; the
second draws 1/2 > 0 and drops tree 0 (`dropped_trees = [0]`), but the
fit after dropout does not beat the previous metric (both are 0), so the
count block is skipped: the counts after the second iteration are
`[0, 0]` - tree 0's consecutive-drop count was NOT incremented although
tree 0 was dropped this iteration. -/
theorem C7_cex_dropped_tree_count_not_incremented :
    ((dartRun
        ⟨5, 1, 0, .COUNT2, .NONE, 1/2, 0, false, false,
         fun _ => 0, fun _ => 0⟩
        (fun m => if m = 0 then ⟨0, [], [], ⟨fun _ => 1, fun _ => 1⟩⟩
          else ⟨1/2, [0], [], ⟨fun _ => 1, fun _ => 1⟩⟩) 2
        (dartInit
          ⟨5, 1, 0, .COUNT2, .NONE, 1/2, 0, false, false,
           fun _ => 0, fun _ => 0⟩ [])).2.getD 1
      ⟨0, [], 0, false, false, false, false, [], [], [], []⟩).dropped_trees
        = [0] ∧
    ((dartRun
        ⟨5, 1, 0, .COUNT2, .NONE, 1/2, 0, false, false,
         fun _ => 0, fun _ => 0⟩
        (fun m => if m = 0 then ⟨0, [], [], ⟨fun _ => 1, fun _ => 1⟩⟩
          else ⟨1/2, [0], [], ⟨fun _ => 1, fun _ => 1⟩⟩) 2
        (dartInit
          ⟨5, 1, 0, .COUNT2, .NONE, 1/2, 0, false, false,
           fun _ => 0, fun _ => 0⟩ [])).2.getD 1
      ⟨0, [], 0, false, false, false, false, [], [], [], []⟩).fitBetter
        = false ∧
    ((dartRun
        ⟨5, 1, 0, .COUNT2, .NONE, 1/2, 0, false, false,
         fun _ => 0, fun _ => 0⟩
        (fun m => if m = 0 then ⟨0, [], [], ⟨fun _ => 1, fun _ => 1⟩⟩
          else ⟨1/2, [0], [], ⟨fun _ => 1, fun _ => 1⟩⟩) 2
        (dartInit
          ⟨5, 1, 0, .COUNT2, .NONE, 1/2, 0, false, false,
           fun _ => 0, fun _ => 0⟩ [])).2.getD 1
      ⟨0, [], 0, false, false, false, false, [], [], [], []⟩).countsBeforeFilter
        = [0, 0] ∧
    isCountType
      (⟨5, 1, 0, .COUNT2, .NONE, 1/2, 0, false, false,
        fun _ => 0, fun _ => 0⟩ : DartCfg).sample_type = true := by
  set cfg : DartCfg := ⟨5, 1, 0, .COUNT2, .NONE, 1/2, 0, false, false,
    fun _ => 0, fun _ => 0⟩ with hcfg
  set o0 : DartOracle := ⟨0, [], [], ⟨fun _ => 1, fun _ => 1⟩⟩ with ho0
  set o1 : DartOracle := ⟨1/2, [0], [], ⟨fun _ => 1, fun _ => 1⟩⟩ with ho1
  set orc : ℕ → DartOracle := fun m => if m = 0 then o0 else o1 with horc
  set s0 : DartState := dartInit cfg [] with hs0
  -- iteration 1: no dropout, fit not better (constant metric), but the
  -- best metric improves from the lowest-value sentinel
  have htd0 : itTD cfg s0 o0 = 0 := by
    simp [itTD, dartTreesToDropout, hs0, dartInit, hcfg, ho0,
      lt_self_iff_false]
  have hfit0 : itFit cfg s0 o0 = false := by
    simp only [itFit]
    rw [htd0]
    rw [if_neg (lt_irrefl 0)]
  have hcb0 : itCB cfg s0 o0 = (itBranch cfg s0 o0, [(0 : ℤ)], []) := by
    simp only [itCB]
    rw [hfit0, dartCountBlock_not_fit]
    rfl
  have hbi0 : dartBestImproved cfg s0 (itCB cfg s0 o0).1 = true := by
    rw [hcb0]
    show decide (lowestScore < (0 : ℚ)) = true
    rw [decide_eq_true_eq]
    norm_num [lowestScore]
  have hbi0' : dartBestImproved cfg s0 (itBranch cfg s0 o0) = true := by
    show decide (lowestScore < (0 : ℚ)) = true
    rw [decide_eq_true_eq]
    norm_num [lowestScore]
  have hE : (dartIteration cfg s0 o0).1.ensemble
      = [(⟨fun _ => 1, fun _ => 1⟩, 1)] := by
    rw [dartIteration_stages, dartBestBlock_ensemble, hbi0, if_pos rfl,
      hcb0]
    rfl
  have hm1 : (dartIteration cfg s0 o0).1.m = 1 := by
    rw [dartIteration_stages]
    rfl
  have hk1 : (dartIteration cfg s0 o0).1.keep_drop = false := by
    rw [dartIteration_stages]
    rfl
  have hmt1 : (dartIteration cfg s0 o0).1.metricTrain = 0 := by
    rw [dartIteration_stages, dartBestBlock_metricTrain, hcb0]
    rfl
  have hc1 : (dartIteration cfg s0 o0).1.counts = [0] := by
    rw [dartIteration_stages]
    simp only [dartBestBlock, hcb0, hbi0', Bool.true_and]
    rfl
  set s1 : DartState := (dartIteration cfg s0 o0).1 with hs1
  -- iteration 2: tree 0 is dropped, the fit is not better
  have hTD2 : itTD cfg s1 o1 = 1 := by
    simp only [itTD]
    rw [hE]
    norm_num [dartTreesToDropout, round_eq, hcfg, ho1, get_weights]
  have hdrop2 : itDropped cfg s1 o1 = [0] := by
    simp only [itDropped]
    rw [hTD2, hE, if_pos one_pos]
    norm_num [select_trees_to_dropout, select_trees_uniform, get_weights,
      hcfg, ho1]
  have hfit2 : itFit cfg s1 o1 = false := by
    simp only [itFit]
    rw [hTD2, if_pos one_pos,
      if_neg (show ¬ cfg.hasValidation = true from fun h => nomatch h)]
    rw [hmt1]
    show decide ((0 : ℚ) < 0) = false
    rfl
  have hfitrep : (dartIteration cfg s1 o1).2.fitBetter = false := by
    rw [dartIteration_stages]
    exact hfit2
  have hcounts2 : (dartIteration cfg s1 o1).2.countsBeforeFilter
      = [0, 0] := by
    rw [(dartIteration_counts_not_fit cfg s1 o1 hfitrep).1, hc1]
    rfl
  have hdroprep : (dartIteration cfg s1 o1).2.dropped_trees = [0] := by
    rw [dartIteration_stages]
    exact hdrop2
  -- unroll the two-iteration run
  have hrun : (dartRun cfg orc 2 s0).2
      = [(dartIteration cfg s0 o0).2, (dartIteration cfg s1 o1).2] := by
    have hcap0 : s0.ensemble.length < cfg.ntrees := by
      simp [hs0, dartInit, hcfg]
    have hbrk0 : ¬ (cfg.hasValidation = true ∧ 0 < cfg.valid_iterations ∧
        s0.bestIter + cfg.valid_iterations < s0.m) := fun h => nomatch h.1
    have hcap1 : s1.ensemble.length < cfg.ntrees := by
      rw [hE]
      norm_num [hcfg]
    have hbrk1 : ¬ (cfg.hasValidation = true ∧ 0 < cfg.valid_iterations ∧
        s1.bestIter + cfg.valid_iterations < s1.m) := fun h => nomatch h.1
    rw [show dartRun cfg orc 2 s0 =
        ((dartRun cfg orc 1 (dartIteration cfg s0 (orc s0.m)).1).1,
         (dartIteration cfg s0 (orc s0.m)).2 ::
           (dartRun cfg orc 1 (dartIteration cfg s0 (orc s0.m)).1).2) from
      dartRun_succ cfg orc 1 s0 hcap0 hbrk0]
    rw [show orc s0.m = o0 from rfl]
    rw [← hs1]
    rw [show dartRun cfg orc 1 s1 =
        ((dartRun cfg orc 0 (dartIteration cfg s1 (orc s1.m)).1).1,
         (dartIteration cfg s1 (orc s1.m)).2 ::
           (dartRun cfg orc 0 (dartIteration cfg s1 (orc s1.m)).1).2) from
      dartRun_succ cfg orc 0 s1 hcap1 hbrk1]
    rw [show orc s1.m = o1 from by rw [hm1]; simp [horc]]
    rfl
  rw [hrun]
  exact ⟨hdroprep, hfitrep, hcounts2, rfl⟩

theorem C7_witness :
    isCountType (⟨5, 1, 0, .COUNT2, .NONE, 1/2, 0, false, false,
      fun _ => 0, fun _ => 0⟩ : DartCfg).sample_type = true ∧
    (dartInit
      (⟨5, 1, 0, .COUNT2, .NONE, 1/2, 0, false, false,
        fun _ => 0, fun _ => 0⟩ : DartCfg) []).keep_drop = false ∧
    (((dartIteration
        ⟨5, 1, 0, .COUNT2, .NONE, 1/2, 0, false, false,
         fun _ => 0, fun _ => 0⟩
        (dartInit
          ⟨5, 1, 0, .COUNT2, .NONE, 1/2, 0, false, false,
           fun _ => 0, fun _ => 0⟩ [])
        ⟨0, [], [], ⟨fun _ => 1, fun _ => 1⟩⟩).2.fitBetter = false →
      (dartIteration
        ⟨5, 1, 0, .COUNT2, .NONE, 1/2, 0, false, false,
         fun _ => 0, fun _ => 0⟩
        (dartInit
          ⟨5, 1, 0, .COUNT2, .NONE, 1/2, 0, false, false,
           fun _ => 0, fun _ => 0⟩ [])
        ⟨0, [], [], ⟨fun _ => 1, fun _ => 1⟩⟩).2.countsBeforeFilter
          = (dartInit
            ⟨5, 1, 0, .COUNT2, .NONE, 1/2, 0, false, false,
             fun _ => 0, fun _ => 0⟩ []).counts ++ [0] ∧
      (dartIteration
        ⟨5, 1, 0, .COUNT2, .NONE, 1/2, 0, false, false,
         fun _ => 0, fun _ => 0⟩
        (dartInit
          ⟨5, 1, 0, .COUNT2, .NONE, 1/2, 0, false, false,
           fun _ => 0, fun _ => 0⟩ [])
        ⟨0, [], [], ⟨fun _ => 1, fun _ => 1⟩⟩).2.trees_to_drop_by_count
          = []) ∧
    ((dartIteration
        ⟨5, 1, 0, .COUNT2, .NONE, 1/2, 0, false, false,
         fun _ => 0, fun _ => 0⟩
        (dartInit
          ⟨5, 1, 0, .COUNT2, .NONE, 1/2, 0, false, false,
           fun _ => 0, fun _ => 0⟩ [])
        ⟨0, [], [], ⟨fun _ => 1, fun _ => 1⟩⟩).2.fitBetter = true →
      (dartIteration
        ⟨5, 1, 0, .COUNT2, .NONE, 1/2, 0, false, false,
         fun _ => 0, fun _ => 0⟩
        (dartInit
          ⟨5, 1, 0, .COUNT2, .NONE, 1/2, 0, false, false,
           fun _ => 0, fun _ => 0⟩ [])
        ⟨0, [], [], ⟨fun _ => 1, fun _ => 1⟩⟩).2.countsBeforeFilter =
        (countLoop
          (if (⟨5, 1, 0, .COUNT2, .NONE, 1/2, 0, false, false,
              fun _ => 0, fun _ => 0⟩ : DartCfg).sample_type
                = SamplingType.COUNT3 ∨
              (⟨5, 1, 0, .COUNT2, .NONE, 1/2, 0, false, false,
               fun _ => 0, fun _ => 0⟩ : DartCfg).sample_type
                = SamplingType.COUNT3N then 3 else 2)
          (dartIteration
            ⟨5, 1, 0, .COUNT2, .NONE, 1/2, 0, false, false,
             fun _ => 0, fun _ => 0⟩
            (dartInit
              ⟨5, 1, 0, .COUNT2, .NONE, 1/2, 0, false, false,
               fun _ => 0, fun _ => 0⟩ [])
            ⟨0, [], [], ⟨fun _ => 1, fun _ => 1⟩⟩).2.owRestored
          (dartIteration
            ⟨5, 1, 0, .COUNT2, .NONE, 1/2, 0, false, false,
             fun _ => 0, fun _ => 0⟩
            (dartInit
              ⟨5, 1, 0, .COUNT2, .NONE, 1/2, 0, false, false,
               fun _ => 0, fun _ => 0⟩ [])
            ⟨0, [], [], ⟨fun _ => 1, fun _ => 1⟩⟩).2.dropped_trees
          ((dartInit
            ⟨5, 1, 0, .COUNT2, .NONE, 1/2, 0, false, false,
             fun _ => 0, fun _ => 0⟩ []).counts ++ [0]) []).1 ∧
      (dartIteration
        ⟨5, 1, 0, .COUNT2, .NONE, 1/2, 0, false, false,
         fun _ => 0, fun _ => 0⟩
        (dartInit
          ⟨5, 1, 0, .COUNT2, .NONE, 1/2, 0, false, false,
           fun _ => 0, fun _ => 0⟩ [])
        ⟨0, [], [], ⟨fun _ => 1, fun _ => 1⟩⟩).2.trees_to_drop_by_count =
        (countLoop
          (if (⟨5, 1, 0, .COUNT2, .NONE, 1/2, 0, false, false,
              fun _ => 0, fun _ => 0⟩ : DartCfg).sample_type
                = SamplingType.COUNT3 ∨
              (⟨5, 1, 0, .COUNT2, .NONE, 1/2, 0, false, false,
               fun _ => 0, fun _ => 0⟩ : DartCfg).sample_type
                = SamplingType.COUNT3N then 3 else 2)
          (dartIteration
            ⟨5, 1, 0, .COUNT2, .NONE, 1/2, 0, false, false,
             fun _ => 0, fun _ => 0⟩
            (dartInit
              ⟨5, 1, 0, .COUNT2, .NONE, 1/2, 0, false, false,
               fun _ => 0, fun _ => 0⟩ [])
            ⟨0, [], [], ⟨fun _ => 1, fun _ => 1⟩⟩).2.owRestored
          (dartIteration
            ⟨5, 1, 0, .COUNT2, .NONE, 1/2, 0, false, false,
             fun _ => 0, fun _ => 0⟩
            (dartInit
              ⟨5, 1, 0, .COUNT2, .NONE, 1/2, 0, false, false,
               fun _ => 0, fun _ => 0⟩ [])
            ⟨0, [], [], ⟨fun _ => 1, fun _ => 1⟩⟩).2.dropped_trees
          ((dartInit
            ⟨5, 1, 0, .COUNT2, .NONE, 1/2, 0, false, false,
             fun _ => 0, fun _ => 0⟩ []).counts ++ [0]) []).2) ∧
    (∀ t ∈ (dartIteration
        ⟨5, 1, 0, .COUNT2, .NONE, 1/2, 0, false, false,
         fun _ => 0, fun _ => 0⟩
        (dartInit
          ⟨5, 1, 0, .COUNT2, .NONE, 1/2, 0, false, false,
           fun _ => 0, fun _ => 0⟩ [])
        ⟨0, [], [], ⟨fun _ => 1, fun _ => 1⟩⟩).2.trees_to_drop_by_count,
      (dartIteration
        ⟨5, 1, 0, .COUNT2, .NONE, 1/2, 0, false, false,
         fun _ => 0, fun _ => 0⟩
        (dartInit
          ⟨5, 1, 0, .COUNT2, .NONE, 1/2, 0, false, false,
           fun _ => 0, fun _ => 0⟩ [])
        ⟨0, [], [], ⟨fun _ => 1, fun _ => 1⟩⟩).2.weightsBeforeFilter.getD
          t 0 = 0) ∧
    (∀ t, t < (dartInit
        ⟨5, 1, 0, .COUNT2, .NONE, 1/2, 0, false, false,
         fun _ => 0, fun _ => 0⟩ []).ensemble.length →
      (get_weights (dartInit
        ⟨5, 1, 0, .COUNT2, .NONE, 1/2, 0, false, false,
         fun _ => 0, fun _ => 0⟩ []).ensemble).getD t 0 = 0 →
      (dartIteration
        ⟨5, 1, 0, .COUNT2, .NONE, 1/2, 0, false, false,
         fun _ => 0, fun _ => 0⟩
        (dartInit
          ⟨5, 1, 0, .COUNT2, .NONE, 1/2, 0, false, false,
           fun _ => 0, fun _ => 0⟩ [])
        ⟨0, [], [], ⟨fun _ => 1, fun _ => 1⟩⟩).2.weightsBeforeFilter.getD
          t 0 = 0)) :=
  ⟨rfl, rfl,
   C7_counting_drop_semantics
     ⟨5, 1, 0, .COUNT2, .NONE, 1/2, 0, false, false,
      fun _ => 0, fun _ => 0⟩
     (dartInit
       ⟨5, 1, 0, .COUNT2, .NONE, 1/2, 0, false, false,
        fun _ => 0, fun _ => 0⟩ [])
     ⟨0, [], [], ⟨fun _ => 1, fun _ => 1⟩⟩ rfl rfl⟩

end QuickRank
